import Mathlib


/-!
Shallow embedding of the phoebus GraphQL execution engine
(src/value-model, src/executor/collect_fields.rs, src/executor/futures.rs,
src/executor/mod.rs, src/introspection.rs, src/resolver.rs) together with
theorems settling the frozen claims about it.

Conventions of the embedding:
* anyhow string errors are carried structurally in `ExecErr`; the literal
  message text of each `anyhow!` call site is preserved.
* Rust panics (`todo!()`, `.unwrap()` on `Err`/`None`) are a distinguished
  outcome `RustResult.panicked`.
* Recursion that the Rust code performs without a structural bound
  (fragment expansion, selection-set descent) takes an explicit fuel
  argument; `RustResult.fuelOut` marks fuel exhaustion, so divergence of
  the Rust code at an input corresponds to the embedding returning
  `fuelOut` for every fuel.
-/

namespace Phoebus

/-! ## Value model

The crate root (src/lib.rs) declares `mod value` exporting `ConstValue` and
`Name`, but `value.rs` itself is not among the provided sources.

Modelled from the spec: the `Value` sum type of section 3 — `Null`,
`Boolean`, `Number`, `String`, `Enum(Name)`, `List` (ordered), `Object`
(ordered mapping, insertion order preserved); `Name` is an interned short
string.  Numbers are modelled as integers; floating point values do not
occur in any claim. -/

abbrev Name := String

inductive ConstValue where
  | null
  | boolean (b : Bool)
  | number (n : Int)
  | string (s : String)
  | enum (n : Name)
  | list (vs : List ConstValue)
  | object (fields : List (Name × ConstValue))
deriving Repr

/-- Structured carrier for `anyhow::Error` values produced by the executor.
The string of each `anyhow!` message is kept; the selection-set aggregate
error `anyhow!("field errors: {:?}", map)` keeps the map itself instead of
its `Debug` rendering. -/
inductive ExecErr where
  | msg (s : String)
  | fieldErrors (errs : List (Name × ExecErr))
deriving Repr

/-- Outcome of running a piece of the Rust code: `ok`/`err` mirror
`Result`, `panicked` marks a panic (`todo!()` or `unwrap` failure) and
`fuelOut` marks exhaustion of the fuel that stands in for unbounded
recursion. -/
inductive RustResult (α : Type) where
  | ok (a : α)
  | err (e : ExecErr)
  | panicked
  | fuelOut
deriving Repr

/-! ## apollo_compiler HIR model

The schema/query IR is an external collaborator (apollo_compiler's hir
module).  Only the shapes the executor reads are modelled.  `hir::Value`
float literals are omitted: no claim touches floating point. -/

inductive HirValue where
  | variable (name : Name)
  | boolean (b : Bool)
  | string (s : String)
  | int (i : Int)
  | enum (n : Name)
  | null
  | list (vs : List HirValue)
  | object (fields : List (Name × HirValue))
deriving Repr

mutual
def HirValue.beq : HirValue → HirValue → Bool
  | .variable a, .variable b => a = b
  | .boolean a, .boolean b => a = b
  | .string a, .string b => a = b
  | .int a, .int b => a = b
  | .enum a, .enum b => a = b
  | .null, .null => true
  | .list a, .list b => HirValue.beqList a b
  | .object a, .object b => HirValue.beqFields a b
  | _, _ => false

def HirValue.beqList : List HirValue → List HirValue → Bool
  | [], [] => true
  | a :: as_, b :: bs => HirValue.beq a b && HirValue.beqList as_ bs
  | _, _ => false

def HirValue.beqFields : List (Name × HirValue) → List (Name × HirValue) → Bool
  | [], [] => true
  | (na, a) :: as_, (nb, b) :: bs =>
      na = nb && HirValue.beq a b && HirValue.beqFields as_ bs
  | _, _ => false
end

structure Directive where
  name : Name
  arguments : List (Name × HirValue)
deriving Repr

/-- hir `Directive::argument_by_name`. -/
def Directive.argumentByName (d : Directive) (n : Name) : Option HirValue :=
  (d.arguments.find? (fun a => a.1 == n)).map (·.2)

/-- hir `Type`: named, list or non-null wrapper. -/
inductive GqlType where
  | named (name : Name)
  | list (ofTy : GqlType)
  | nonNull (ofTy : GqlType)
deriving Repr, DecidableEq

/-- hir `Type::name()` — the innermost named type. -/
def GqlType.name : GqlType → Name
  | .named n => n
  | .list t => t.name
  | .nonNull t => t.name

/- Field / selection nodes of the executable document.  The declared type
that the hir `Field::ty(db)` call would look up from the schema is carried
on the node (`fieldType`), since the salsa database of apollo_compiler is
an external collaborator. -/
mutual
inductive Field where
  | mk (aliasName : Option Name) (name : Name) (directives : List Directive)
      (arguments : List (Name × HirValue)) (fieldType : Option GqlType)
      (selectionSet : List Selection)

inductive Selection where
  | field (f : Field)
  | fragmentSpread (name : Name) (directives : List Directive)
  | inlineFragment (typeCondition : Option Name) (directives : List Directive)
      (selectionSet : List Selection)
end

def Field.aliasName : Field → Option Name
  | .mk a _ _ _ _ _ => a

def Field.name : Field → Name
  | .mk _ n _ _ _ _ => n

def Field.directives : Field → List Directive
  | .mk _ _ ds _ _ _ => ds

def Field.arguments : Field → List (Name × HirValue)
  | .mk _ _ _ args _ _ => args

def Field.fieldType : Field → Option GqlType
  | .mk _ _ _ _ t _ => t

def Field.selectionSet : Field → List Selection
  | .mk _ _ _ _ _ ss => ss

/-! ## Schema-side type definitions (hir TypeDefinition and friends) -/

structure EnumValueDef where
  enumValue : Name
  description : Option String
  directives : List Directive
deriving Repr

structure InputValueDef where
  name : Name
  description : Option String
  ty : GqlType
  defaultValue : Option HirValue
  directives : List Directive
deriving Repr

structure FieldDef where
  name : Name
  description : Option String
  args : List InputValueDef
  ty : GqlType
  directives : List Directive
deriving Repr

structure ObjectTypeDef where
  name : Name
  description : Option String
  implementsInterfaces : List Name
  fields : List FieldDef
deriving Repr

structure InterfaceTypeDef where
  name : Name
  description : Option String
  fields : List FieldDef
deriving Repr

structure UnionTypeDef where
  name : Name
  description : Option String
  unionMembers : List Name
deriving Repr

structure ScalarTypeDef where
  name : Name
  description : Option String
  directives : List Directive
deriving Repr

structure EnumTypeDef where
  name : Name
  description : Option String
  values : List EnumValueDef
deriving Repr

structure InputObjectTypeDef where
  name : Name
  description : Option String
deriving Repr

inductive TypeDef where
  | object (o : ObjectTypeDef)
  | interface (i : InterfaceTypeDef)
  | union (u : UnionTypeDef)
  | scalar (s : ScalarTypeDef)
  | enum (e : EnumTypeDef)
  | inputObject (io : InputObjectTypeDef)
deriving Repr

def TypeDef.name : TypeDef → Name
  | .object o => o.name
  | .interface i => i.name
  | .union u => u.name
  | .scalar s => s.name
  | .enum e => e.name
  | .inputObject io => io.name

/-- Structural equality test mirroring the derived `PartialEq` that Rust
uses in `obj_type == obj_frag_type.as_ref()`. -/
def ObjectTypeDef.beq (a b : ObjectTypeDef) : Bool :=
  a.name == b.name && a.description == b.description
    && a.implementsInterfaces == b.implementsInterfaces
    && fieldDefsBeq a.fields b.fields
where
  directivesBeq : List Directive → List Directive → Bool
    | [], [] => true
    | d :: ds, e :: es =>
        d.name == e.name && HirValue.beqFields d.arguments e.arguments
          && directivesBeq ds es
    | _, _ => false
  inputValuesBeq : List InputValueDef → List InputValueDef → Bool
    | [], [] => true
    | a :: as_, b :: bs =>
        a.name == b.name && a.description == b.description && a.ty == b.ty
          && (match a.defaultValue, b.defaultValue with
              | none, none => true
              | some x, some y => HirValue.beq x y
              | _, _ => false)
          && directivesBeq a.directives b.directives
          && inputValuesBeq as_ bs
    | _, _ => false
  fieldDefsBeq : List FieldDef → List FieldDef → Bool
    | [], [] => true
    | a :: as_, b :: bs =>
        a.name == b.name && a.description == b.description && a.ty == b.ty
          && inputValuesBeq a.args b.args && directivesBeq a.directives b.directives
          && fieldDefsBeq as_ bs
    | _, _ => false

/-- hir FragmentDefinition: type condition plus selection set. -/
structure FragmentDef where
  typeCondition : Name
  selectionSet : List Selection

/-- The read-only type system view (`Arc<TypeSystem>`): type definitions by
name, the object-type index (`definitions.objects`) and the subtype map. -/
structure TypeSystem where
  typeDefinitionsByName : List (Name × TypeDef)
  objects : List (Name × ObjectTypeDef)
  subtypeMap : List (Name × List Name)

def TypeSystem.findTypeDefinitionByName (ts : TypeSystem) (n : Name) : Option TypeDef :=
  (ts.typeDefinitionsByName.find? (fun kv => kv.1 == n)).map (·.2)

def TypeSystem.findObjectTypeByName (ts : TypeSystem) (n : Name) : Option ObjectTypeDef :=
  (ts.objects.find? (fun kv => kv.1 == n)).map (·.2)

/-- src/executor/mod.rs `ExecCtx` (the `ExecSchema.all_fields` index is not
consulted by any modelled operation and is omitted; the Rust field named
`variables` is spelled `variablesMap` because Lean reserves that word). -/
structure ExecCtx where
  schema : TypeSystem
  fragments : List (Name × FragmentDef)
  variablesMap : List (Name × ConstValue)

def ExecCtx.fragment (ectx : ExecCtx) (n : Name) : Option FragmentDef :=
  (ectx.fragments.find? (fun kv => kv.1 == n)).map (·.2)

def ExecCtx.findTypeDefinitionByName (ectx : ExecCtx) (n : Name) : Option TypeDef :=
  ectx.schema.findTypeDefinitionByName n

/-- src/executor/mod.rs `ExecCtx::is_subtype`. -/
def ExecCtx.isSubtype (ectx : ExecCtx) (concreteType abstractType : Name) : Bool :=
  match (ectx.schema.subtypeMap.find? (fun kv => kv.1 == concreteType)).map (·.2) with
  | some ats => ats.contains abstractType
  | none => false

/-! ## Field collection (src/executor/collect_fields.rs) -/

/-- `sel_directives`. -/
def sel_directives : Selection → List Directive
  | .field f => f.directives
  | .fragmentSpread _ ds => ds
  | .inlineFragment _ ds _ => ds

/-- `skip_directive`: first directive named "skip". -/
def skip_directive (sel : Selection) : Option Directive :=
  (sel_directives sel).find? (fun d => d.name == "skip")

/-- `include_directive`: first directive named "include". -/
def include_directive (sel : Selection) : Option Directive :=
  (sel_directives sel).find? (fun d => d.name == "include")

/-- `should_skip` of src/executor/collect_fields.rs.  The
`hir::Value::Variable(_var) => todo!()` arm panics. -/
def should_skip (sel : Selection) : RustResult Bool :=
  match skip_directive sel with
  | none => .ok false
  | some skip =>
    match skip.argumentByName "if" with
    | none => .err (.msg "if expression missing from @skip")
    | some (.boolean skipIf) => .ok skipIf
    | some (.variable _) => .panicked
    | some _ => .err (.msg "invalid @skip if argument")

/-- `should_include` of src/executor/collect_fields.rs; the variable arm is
likewise `todo!()`. -/
def should_include (sel : Selection) : RustResult Bool :=
  match include_directive sel with
  | none => .ok true
  | some incl =>
    match incl.argumentByName "if" with
    | none => .err (.msg "if expression missing from @include")
    | some (.boolean includeIf) => .ok includeIf
    | some (.variable _) => .panicked
    | some _ => .err (.msg "invalid @include if argument")

/-- `fragment_type_applies` of src/executor/collect_fields.rs. -/
def fragment_type_applies (ectx : ExecCtx) (objType : ObjectTypeDef)
    (fragType : TypeDef) : RustResult Bool :=
  match fragType with
  | .object objFragType => .ok (objType.beq objFragType)
  | .interface _ => .ok (ectx.isSubtype objType.name fragType.name)
  | .union unionType => .ok (ectx.isSubtype objType.name unionType.name)
  | invalid => .err (.msg ("invalid type in fragment type condition " ++ invalid.name))

/-- Response key: alias if present, else the field name. -/
def responseKey (f : Field) : Name :=
  match f.aliasName with
  | some a => a
  | none => f.name

/-- `grouped_fields.entry(response_key).or_default().push(field)` on the
insertion-ordered `IndexMap`. -/
def pushGrouped (m : List (Name × List Field)) (k : Name) (f : Field) :
    List (Name × List Field) :=
  if m.any (fun kv => kv.1 == k) then
    m.map (fun kv => if kv.1 == k then (kv.1, kv.2 ++ [f]) else kv)
  else
    m ++ [(k, [f])]

/-- The recursive worker `inner` of `collect_fields`
(src/executor/collect_fields.rs).  The Rust code recurses into fragment
selection sets with no visited-fragment tracking (its own comment reads
"FIXME track visitedFragments according to spec"); the embedding spends one
unit of fuel per selection processed and per descent, so an input on which
the Rust code diverges is one where every fuel yields `fuelOut`, and a
terminating run is reproduced by every sufficiently large fuel. -/
def collectInner (ectx : ExecCtx) (concreteType : ObjectTypeDef)
    (fuel0 : Nat) (sels : List Selection) (grouped0 : List (Name × List Field)) :
    RustResult (List (Name × List Field)) :=
  match sels, fuel0, grouped0 with
  | [], _, grouped => .ok grouped
  | _ :: _, 0, _ => .fuelOut
  | sel :: rest, fuel + 1, grouped =>
    match should_skip sel with
    | .err e => .err e
    | .panicked => .panicked
    | .fuelOut => .fuelOut
    | .ok sk =>
      if sk then collectInner ectx concreteType fuel rest grouped
      else
        match should_include sel with
        | .err e => .err e
        | .panicked => .panicked
        | .fuelOut => .fuelOut
        | .ok inc =>
          if !inc then collectInner ectx concreteType fuel rest grouped
          else
            match sel with
            | .field f =>
                collectInner ectx concreteType fuel rest
                  (pushGrouped grouped (responseKey f) f)
            | .fragmentSpread fragName _ =>
              match ectx.fragment fragName with
              | none => .err (.msg ("fragment definition not found: " ++ fragName))
              | some fragDef =>
                match ectx.findTypeDefinitionByName fragDef.typeCondition with
                | none =>
                    .err (.msg ("fragment definition type condition type not found: "
                      ++ fragDef.typeCondition))
                | some typeCondType =>
                  match fragment_type_applies ectx concreteType typeCondType with
                  | .err e => .err e
                  | .panicked => .panicked
                  | .fuelOut => .fuelOut
                  | .ok false => collectInner ectx concreteType fuel rest grouped
                  | .ok true =>
                    match collectInner ectx concreteType fuel
                        fragDef.selectionSet grouped with
                    | .err e => .err e
                    | .panicked => .panicked
                    | .fuelOut => .fuelOut
                    | .ok grouped' =>
                        collectInner ectx concreteType fuel rest grouped'
            | .inlineFragment typeCond _ selSet =>
              match typeCond with
              | none => collectInner ectx concreteType fuel rest grouped
              | some tc =>
                match ectx.findTypeDefinitionByName tc with
                | none =>
                    .err (.msg ("inline fragment type condition type not found: " ++ tc))
                | some typeCondType =>
                  match fragment_type_applies ectx concreteType typeCondType with
                  | .err e => .err e
                  | .panicked => .panicked
                  | .fuelOut => .fuelOut
                  | .ok false => collectInner ectx concreteType fuel rest grouped
                  | .ok true =>
                    match collectInner ectx concreteType fuel selSet grouped with
                    | .err e => .err e
                    | .panicked => .panicked
                    | .fuelOut => .fuelOut
                    | .ok grouped' =>
                        collectInner ectx concreteType fuel rest grouped'

/-- `collect_fields` of src/executor/collect_fields.rs. -/
def collect_fields (ectx : ExecCtx) (fuel : Nat) (selSet : List Selection)
    (concreteType : ObjectTypeDef) : RustResult (List (Name × List Field)) :=
  collectInner ectx concreteType fuel selSet []

/-! ## Resolver interface (src/resolver.rs as used by src/executor/futures.rs)

src/executor/futures.rs and src/introspection.rs call
`resolver.resolve_field(name)` with no context argument; the resolver
behaviour is abstracted as a function from field names.  `resolve_type_name`
defaults to `Ok(None)` in the trait. -/

mutual
inductive Resolved where
  | value (v : ConstValue)
  | object (r : ObjResolver)
  | array (elems : List Resolved)

inductive ObjResolver where
  | mk (resolveTypeNameImpl : RustResult (Option Name))
      (resolveFieldImpl : Name → RustResult Resolved)
end

def ObjResolver.resolveTypeName : ObjResolver → RustResult (Option Name)
  | .mk t _ => t

def ObjResolver.resolveField : ObjResolver → Name → RustResult Resolved
  | .mk _ f => f

/-- hir `Snapshot` as consumed by src/executor/futures.rs: the type system
plus the executable document's fragments. -/
structure Snapshot where
  ts : TypeSystem
  fragments : List (Name × FragmentDef)

def Snapshot.findObjectTypeByName (snapshot : Snapshot) (n : Name) :
    Option ObjectTypeDef :=
  snapshot.ts.findObjectTypeByName n

def Snapshot.findTypeDefinitionByName (snapshot : Snapshot) (n : Name) :
    Option TypeDef :=
  snapshot.ts.findTypeDefinitionByName n

def Snapshot.fragment (snapshot : Snapshot) (n : Name) : Option FragmentDef :=
  (snapshot.fragments.find? (fun kv => kv.1 == n)).map (·.2)

/-! ## Field collection as duplicated inside src/executor/futures.rs

futures.rs carries its own private `collect_fields`, `should_skip`,
`should_include` and `fragment_type_applies`.  `should_skip` and
`should_include` have the same bodies as the collect_fields.rs versions
(boolean literal accepted, `Variable => todo!()`, other shapes an error)
and are shared above; `fragment_type_applies` differs: it consults
`implements_interfaces` / `union_members` directly instead of the subtype
map. -/

/-- `fragment_type_applies` of src/executor/futures.rs. -/
def fragment_type_applies_fut (objType : ObjectTypeDef) (fragType : TypeDef) :
    RustResult Bool :=
  match fragType with
  | .object objFragType => .ok (objType.beq objFragType)
  | .interface objIfaceType =>
      .ok ((objType.implementsInterfaces.find? (fun ii => ii == objIfaceType.name)).isSome)
  | .union unionType =>
      .ok ((unionType.unionMembers.find? (fun ut => ut == objType.name)).isSome)
  | invalid => .err (.msg ("invalid type in fragment type condition " ++ invalid.name))

/-- The worker `inner` of the `collect_fields` private to
src/executor/futures.rs (fragment and type lookups through the snapshot,
no visited-fragment tracking; fuel as in `collectInner`). -/
def collectInnerFut (snapshot : Snapshot) (concreteType : ObjectTypeDef)
    (fuel0 : Nat) (sels : List Selection) (grouped0 : List (Name × List Field)) :
    RustResult (List (Name × List Field)) :=
  match sels, fuel0, grouped0 with
  | [], _, grouped => .ok grouped
  | _ :: _, 0, _ => .fuelOut
  | sel :: rest, fuel + 1, grouped =>
    match should_skip sel with
    | .err e => .err e
    | .panicked => .panicked
    | .fuelOut => .fuelOut
    | .ok sk =>
      if sk then collectInnerFut snapshot concreteType fuel rest grouped
      else
        match should_include sel with
        | .err e => .err e
        | .panicked => .panicked
        | .fuelOut => .fuelOut
        | .ok inc =>
          if !inc then collectInnerFut snapshot concreteType fuel rest grouped
          else
            match sel with
            | .field f =>
                collectInnerFut snapshot concreteType fuel rest
                  (pushGrouped grouped (responseKey f) f)
            | .fragmentSpread fragName _ =>
              match snapshot.fragment fragName with
              | none => .err (.msg ("fragment definition not found: " ++ fragName))
              | some fragDef =>
                match snapshot.findTypeDefinitionByName fragDef.typeCondition with
                | none =>
                    .err (.msg ("fragment definition type condition type not found: "
                      ++ fragDef.typeCondition))
                | some typeCondType =>
                  match fragment_type_applies_fut concreteType typeCondType with
                  | .err e => .err e
                  | .panicked => .panicked
                  | .fuelOut => .fuelOut
                  | .ok false => collectInnerFut snapshot concreteType fuel rest grouped
                  | .ok true =>
                    match collectInnerFut snapshot concreteType fuel
                        fragDef.selectionSet grouped with
                    | .err e => .err e
                    | .panicked => .panicked
                    | .fuelOut => .fuelOut
                    | .ok grouped' =>
                        collectInnerFut snapshot concreteType fuel rest grouped'
            | .inlineFragment typeCond _ selSet =>
              match typeCond with
              | none => collectInnerFut snapshot concreteType fuel rest grouped
              | some tc =>
                match snapshot.findTypeDefinitionByName tc with
                | none =>
                    .err (.msg ("inline fragment type condition type not found: " ++ tc))
                | some typeCondType =>
                  match fragment_type_applies_fut concreteType typeCondType with
                  | .err e => .err e
                  | .panicked => .panicked
                  | .fuelOut => .fuelOut
                  | .ok false => collectInnerFut snapshot concreteType fuel rest grouped
                  | .ok true =>
                    match collectInnerFut snapshot concreteType fuel selSet grouped with
                    | .err e => .err e
                    | .panicked => .panicked
                    | .fuelOut => .fuelOut
                    | .ok grouped' =>
                        collectInnerFut snapshot concreteType fuel rest grouped'

/-- The `collect_fields` private to src/executor/futures.rs. -/
def collect_fields_fut (snapshot : Snapshot) (fuel : Nat) (selSet : List Selection)
    (concreteType : ObjectTypeDef) : RustResult (List (Name × List Field)) :=
  collectInnerFut snapshot concreteType fuel selSet []

/-! ## The recursive resolution machine (src/executor/futures.rs)

`resolve_field` builds, for one field, the future
`resolver.resolve_field(name)` followed by `resolve_to_value`.
`resolve_to_value` dispatches on the `Resolved` variant; the `Array` branch
pushes one future per element into a `futures::stream::FuturesOrdered` (in
element order) and runs `try_collect` on it.  `FuturesOrdered` buffers
out-of-order completions and yields results strictly in push order, so the
value `try_collect` produces equals the sequential per-element fold
`resolveElems` below for every completion schedule; the operational model
`foRun` further down makes that order-independence a theorem rather than an
assumption.

The functions are the awaited (run-to-completion) denotations of the
futures; fuel is a total step budget (one unit per recursive entry), so a
terminating Rust run is reproduced by every sufficiently large fuel. -/

mutual
def resolve_to_value : Nat → Snapshot → Field → Resolved → RustResult ConstValue
  | 0, _, _, _ => .fuelOut
  | fuel + 1, snapshot, field, resolved =>
    match field.fieldType with
    | none => .err (.msg "field type not found")
    | some fieldTy =>
      match snapshot.findTypeDefinitionByName fieldTy.name with
      | none => .err (.msg "field type definition not found")
      | some fieldTypeDef =>
        match resolved with
        | .value v => .ok v
        | .object objResolver =>
          match fieldTypeDef with
          | .object o =>
              executeSelectionSet fuel snapshot objResolver o field.selectionSet
          | .interface iface =>
            match objResolver.resolveTypeName with
            | .err e => .err e
            | .panicked => .panicked
            | .fuelOut => .fuelOut
            | .ok none =>
                .err (.msg ("resolver did not return concrete type for " ++ iface.name))
            | .ok (some typeName) =>
              match snapshot.findObjectTypeByName typeName with
              | none => .err (.msg ("concrete object type not found: " ++ typeName))
              | some o =>
                  executeSelectionSet fuel snapshot objResolver o field.selectionSet
          | _ => .err (.msg "type mismatch: object type expected")
        | .array arr =>
          match resolveElems fuel snapshot field arr with
          | .ok vals => .ok (.list vals)
          | .err e => .err e
          | .panicked => .panicked
          | .fuelOut => .fuelOut

/-- The element loop of the `Resolved::Array` branch: one future per
element, results in element order, first failure aborts (the
`FuturesOrdered` + `try_collect` semantics; `foRun` below shows the
assembled value is the same for every completion schedule). -/
def resolveElems (fuel0 : Nat) (snapshot : Snapshot) (field : Field)
    (elems : List Resolved) : RustResult (List ConstValue) :=
  match elems, fuel0 with
  | [], _ => .ok []
  | _ :: _, 0 => .fuelOut
  | element :: rest, fuel + 1 =>
    match resolve_to_value fuel snapshot field element with
    | .err e => .err e
    | .panicked => .panicked
    | .fuelOut => .fuelOut
    | .ok v =>
      match resolveElems fuel snapshot field rest with
      | .ok vs => .ok (v :: vs)
      | .err e => .err e
      | .panicked => .panicked
      | .fuelOut => .fuelOut

/-- `SelectionSetFuture::new` followed by polling to completion, with every
field future awaited in turn: collect the fields, take the first field of
each group, resolve it, and aggregate values and errors per response key.
This is the denotation of the selection-set future when each resolver is
ready immediately; the poll-level scheduling is modelled operationally by
`SelState`/`pollStep` below. -/
def executeSelectionSet : Nat → Snapshot → ObjResolver → ObjectTypeDef →
    List Selection → RustResult ConstValue
  | 0, _, _, _, _ => .fuelOut
  | fuel + 1, snapshot, objResolver, objectTy, selSet =>
    match collect_fields_fut snapshot (fuel + 1) selSet objectTy with
    | .err e => .err e
    | .panicked => .panicked
    | .fuelOut => .fuelOut
    | .ok collected => runFields fuel snapshot objResolver collected [] []

/-- Drive the per-key field futures of one selection set, in collection
order, accumulating the output map and field errors exactly as
`SelectionSetFuture::poll` does when every future completes on its first
poll. -/
def runFields (fuel0 : Nat) (snapshot : Snapshot) (objResolver : ObjResolver)
    (entries : List (Name × List Field)) (outputMap0 : List (Name × ConstValue))
    (fieldErrors0 : List (Name × ExecErr)) : RustResult ConstValue :=
  match entries, fuel0, outputMap0, fieldErrors0 with
  | [], _, outputMap, [] => .ok (.object outputMap)
  | [], _, _, e :: es => .err (.fieldErrors (e :: es))
  | _ :: _, 0, _, _ => .fuelOut
  | (responseKey_, fields) :: rest, fuel + 1, outputMap, fieldErrors =>
    match fields with
    | [] =>
        .err (.msg ("response key " ++ responseKey_
          ++ " in collected fields contained an empty set"))
    | field :: _ =>
      match objResolver.resolveField field.name with
      | .panicked => .panicked
      | .fuelOut => .fuelOut
      | .err e =>
          runFields fuel snapshot objResolver rest outputMap
            (fieldErrors ++ [(responseKey_, e)])
      | .ok resolved =>
        match resolve_to_value fuel snapshot field resolved with
        | .panicked => .panicked
        | .fuelOut => .fuelOut
        | .err e =>
            runFields fuel snapshot objResolver rest outputMap
              (fieldErrors ++ [(responseKey_, e)])
        | .ok v =>
            runFields fuel snapshot objResolver rest
              (outputMap ++ [(responseKey_, v)]) fieldErrors
end

/-! ## The poll-level state machine of `SelectionSetFuture`
(src/executor/futures.rs, `poll`)

Each in-flight field future is abstracted by the number of polls it needs
before completing (`delay`; `0` means ready on the first poll) and its
eventual `Result`.  One call to `SelectionSetFuture::poll` runs
`field_futs.retain(...)`: every pending future is polled in insertion
order; completed ones are removed and their value or error inserted at
their response key (the `IndexMap` inserts append, keys being distinct);
then the future completes if no field future remains. -/

structure FieldTask where
  delay : Nat
  result : Except ExecErr ConstValue
deriving Repr

structure SelState where
  fieldFuts : List (Name × FieldTask)
  outputMap : List (Name × ConstValue)
  fieldErrors : List (Name × ExecErr)
deriving Repr

/-- The futures a `retain` pass keeps: still-pending tasks, each advanced
by one poll. -/
def stepTasks (ts : List (Name × FieldTask)) : List (Name × FieldTask) :=
  (ts.filter (fun kt => kt.2.delay != 0)).map
    (fun kt => (kt.1, ⟨kt.2.delay - 1, kt.2.result⟩))

/-- The pairs a `retain` pass inserts into the output map: tasks ready this
round whose result is a value, in insertion order. -/
def readyOk (ts : List (Name × FieldTask)) : List (Name × ConstValue) :=
  (ts.filter (fun kt => kt.2.delay == 0)).filterMap
    (fun kt => match kt.2.result with
      | .ok v => some (kt.1, v)
      | .error _ => none)

/-- The pairs a `retain` pass inserts into the field-error map. -/
def readyErr (ts : List (Name × FieldTask)) : List (Name × ExecErr) :=
  (ts.filter (fun kt => kt.2.delay == 0)).filterMap
    (fun kt => match kt.2.result with
      | .error e => some (kt.1, e)
      | .ok _ => none)

/-- The `retain` pass of one `poll` call. -/
def pollStep (s : SelState) : SelState :=
  { fieldFuts := stepTasks s.fieldFuts,
    outputMap := s.outputMap ++ readyOk s.fieldFuts,
    fieldErrors := s.fieldErrors ++ readyErr s.fieldFuts }

/-- The completion check at the end of `poll`: `Ready` with the aggregate
error or the output object once no field future remains, else `Pending`
(`none`). -/
def pollReady (s : SelState) : Option (Except ExecErr ConstValue) :=
  if s.fieldFuts.isEmpty then
    if s.fieldErrors.isEmpty then some (.ok (.object s.outputMap))
    else some (.error (.fieldErrors s.fieldErrors))
  else none

/-- n successive calls to `poll` (each runs one `retain` pass). -/
def runPolls : Nat → SelState → SelState
  | 0, s => s
  | n + 1, s => runPolls n (pollStep s)

/-- `SelectionSetFuture::new`: one task per collected response key, built
from the first field of the group (`fields.first().ok_or(...)?`); the
behaviour of the spawned future is abstracted by `behavior`. -/
def buildFieldFuts (behavior : Name → Field → FieldTask) :
    List (Name × List Field) → Except ExecErr (List (Name × FieldTask))
  | [] => .ok []
  | (responseKey_, fields) :: rest =>
    match fields with
    | [] =>
        .error (.msg ("response key " ++ responseKey_
          ++ " in collected fields contained an empty set"))
    | field :: _ =>
      match buildFieldFuts behavior rest with
      | .ok tasks => .ok ((responseKey_, behavior responseKey_ field) :: tasks)
      | .error e => .error e

def selectionSetNew (collected : List (Name × List Field))
    (behavior : Name → Field → FieldTask) : Except ExecErr SelState :=
  match buildFieldFuts behavior collected with
  | .ok tasks => .ok ⟨tasks, [], []⟩
  | .error e => .error e

/-! ## Operational model of `FuturesOrdered` + `try_collect`

Element futures are pushed in order; each round polls every pending future
(delays decrement), completions are buffered, and the stream yields
buffered results strictly in push order; `try_collect` accumulates yielded
values and aborts on the first yielded failure.  Because yields are in push
order, the machine is equivalent to draining from the front whenever the
front future has completed. -/

structure FOElem where
  delay : Nat
  result : RustResult ConstValue

/-- One poll round: every pending element future advances. -/
def foDecr (ts : List FOElem) : List FOElem :=
  ts.map (fun t => ⟨t.delay - 1, t.result⟩)

inductive FOStep where
  | cont (pending : List FOElem) (acc : List ConstValue)
  | done (r : RustResult (List ConstValue))

/-- Yield every completed element from the front of the queue; stop at the
first pending element, at the first failure, or at stream end. -/
def foDrain : List FOElem → List ConstValue → FOStep
  | [], acc => .done (.ok acc)
  | t :: rest, acc =>
    if t.delay = 0 then
      match t.result with
      | .ok v => foDrain rest (acc ++ [v])
      | .err e => .done (.err e)
      | .panicked => .done .panicked
      | .fuelOut => .done .fuelOut
    else .cont (t :: rest) acc

/-- Run the `FuturesOrdered` machine for at most the given number of poll
rounds. -/
def foRun : Nat → List FOElem → List ConstValue → RustResult (List ConstValue)
  | 0, _, _ => .fuelOut
  | n + 1, ts, acc =>
    match foDrain (foDecr ts) acc with
    | .done r => r
    | .cont pending acc2 => foRun n pending acc2

/-- The completion-order-free specification the machine is proved equal to:
results assembled in push order, first failure aborts. -/
def foSpec (acc : List ConstValue) : List (RustResult ConstValue) →
    RustResult (List ConstValue)
  | [] => .ok acc
  | r :: rest =>
    match r with
    | .ok v => foSpec (acc ++ [v]) rest
    | .err e => .err e
    | .panicked => .panicked
    | .fuelOut => .fuelOut

/-! ## Introspection resolvers (src/introspection.rs)

Rust builds the nested `Isp*Resolver` structs lazily, one hop at a time, as
fields are resolved; the embedding therefore passes an explicit depth
budget when constructing a resolver, and a budget of `0` yields a resolver
whose fields all report `fuelOut`.  No claim exercises that budget. -/

/-- `Resolved::null()`. -/
def Resolved.null : Resolved := .value .null

/-- `Resolved::string`. -/
def Resolved.string (s : String) : Resolved := .value (.string s)

/-- `Resolved::string_opt`. -/
def Resolved.string_opt : Option String → Resolved
  | some s => .string s
  | none => .null

/-- `Resolved::enum_value`. -/
def Resolved.enum_value (v : String) : Resolved := .value (.enum v)

/-- The `IspDirectives` helper trait: `deprecated_directive`. -/
def deprecatedDirective (ds : List Directive) : Option Directive :=
  ds.find? (fun d => d.name == "deprecated")

/-- `IspDirectives::is_deprecated`. -/
def isDeprecated (ds : List Directive) : Bool :=
  (deprecatedDirective ds).isSome

/-- `IspDirectives::resolve_is_deprecated`. -/
def resolveIsDeprecated (ds : List Directive) : Resolved :=
  .value (.boolean (isDeprecated ds))

/-- `IspDirectives::deprecation_reason`. -/
def deprecationReason (ds : List Directive) : Option String :=
  (deprecatedDirective ds).bind (fun d =>
    match d.argumentByName "reason" with
    | some (.string s) => some s
    | _ => none)

/-- `IspDirectives::resolve_deprecation_reason`. -/
def resolveDeprecationReason (ds : List Directive) : Resolved :=
  Resolved.string_opt (deprecationReason ds)

/-- `IspTypeResolver::resolve_specified_by`. -/
def resolve_specified_by (typeDef : ScalarTypeDef) : Resolved :=
  Resolved.string_opt ((typeDef.directives.find? (fun d => d.name == "specifiedBy")).bind
    (fun d =>
      match d.argumentByName "url" with
      | some (.string s) => some s
      | _ => none))

mutual
/-- Stands in for the `format!("{:?}", v)` rendering of a default value in
`IspInputValueResolver` (the exact Rust `Debug` text is not reproduced;
the rendering is structural and total). -/
def hirValueDebug : HirValue → String
  | .variable n => "Variable(" ++ n ++ ")"
  | .boolean b => if b then "true" else "false"
  | .string s => s
  | .int i => toString i
  | .enum n => n
  | .null => "null"
  | .list vs => "[" ++ String.intercalate ", " (hirValueDebugList vs) ++ "]"
  | .object fs => "\x7b" ++ String.intercalate ", " (hirValueDebugFields fs) ++ "\x7d"

def hirValueDebugList : List HirValue → List String
  | [] => []
  | v :: vs => hirValueDebug v :: hirValueDebugList vs

def hirValueDebugFields : List (Name × HirValue) → List String
  | [] => []
  | (n, v) :: fs => (n ++ ": " ++ hirValueDebug v) :: hirValueDebugFields fs
end

/-- `IspEnumValueResolver`. -/
def ispEnumValueResolver (enumValue : EnumValueDef) : ObjResolver :=
  .mk (.ok none) (fun name =>
    match name with
    | "name" => .ok (Resolved.string enumValue.enumValue)
    | "description" => .ok (Resolved.string_opt enumValue.description)
    | "isDeprecated" => .ok (resolveIsDeprecated enumValue.directives)
    | "deprecationReason" => .ok (resolveDeprecationReason enumValue.directives)
    | _ => .ok Resolved.null)

mutual
/-- `IspTypeResolver` (dispatch of its `resolve_field` on the type shape). -/
def ispTypeResolver (ts : TypeSystem) : Nat → GqlType → ObjResolver
  | 0, _ => .mk (.ok none) (fun _ => .fuelOut)
  | fuel + 1, ty =>
    .mk (.ok none) (fun name =>
      match ty with
      | .list ofTy => resolve_list_type ts fuel ty name ofTy
      | .named tyName => resolve_named_type ts fuel ty name tyName
      | .nonNull ofTy => resolve_non_null_type ts fuel ty name ofTy)
  termination_by fuel _ => (fuel, 0)


/-- `IspTypeResolver::resolve_list_type`. -/
def resolve_list_type (ts : TypeSystem) (fuel : Nat) (ty : GqlType) (field : Name)
    (ofType : GqlType) : RustResult Resolved :=
  match field with
  | "kind" => .ok (Resolved.enum_value "LIST")
  | "name" => .ok (Resolved.string ty.name)
  | "description" => .ok (Resolved.string "")
  | "fields" => .ok Resolved.null
  | "interfaces" => .ok Resolved.null
  | "possibleTypes" => .ok Resolved.null
  | "enumValues" => .ok Resolved.null
  | "inputFields" => .ok Resolved.null
  | "ofType" => .ok (.object (ispTypeResolver ts fuel ofType))
  | "specifiedByURL" => .ok Resolved.null
  | _ => .err (.msg "invalid list type field")
  termination_by (fuel, 3)

/-- `IspTypeResolver::resolve_non_null_type`. -/
def resolve_non_null_type (ts : TypeSystem) (fuel : Nat) (ty : GqlType) (field : Name)
    (ofType : GqlType) : RustResult Resolved :=
  match field with
  | "kind" => .ok (Resolved.enum_value "NON_NULL")
  | "name" => .ok (Resolved.string ty.name)
  | "description" => .ok Resolved.null
  | "fields" => .ok Resolved.null
  | "interfaces" => .ok Resolved.null
  | "possibleTypes" => .ok Resolved.null
  | "enumValues" => .ok Resolved.null
  | "inputFields" => .ok Resolved.null
  | "ofType" => .ok (.object (ispTypeResolver ts fuel ofType))
  | "specifiedByURL" => .ok Resolved.null
  | _ => .err (.msg "invalid list type field")
  termination_by (fuel, 3)

/-- `IspTypeResolver::resolve_named_type`: look the name up and dispatch on
the kind of definition; an unknown name resolves every field to null. -/
def resolve_named_type (ts : TypeSystem) (fuel : Nat) (ty : GqlType) (field : Name)
    (typeName : Name) : RustResult Resolved :=
  match ts.findTypeDefinitionByName typeName with
  | none => .ok Resolved.null
  | some (.scalar typeDef) => resolve_scalar_type ts fuel ty field typeDef
  | some (.object typeDef) => resolve_object_type ts fuel ty field typeDef
  | some (.interface typeDef) => resolve_interface_type ts fuel ty field typeDef
  | some (.union typeDef) => resolve_union_type ts fuel ty field typeDef
  | some (.enum typeDef) => resolve_enum_type ts fuel ty field typeDef
  | some (.inputObject typeDef) => resolve_input_type ts fuel ty field typeDef
  termination_by (fuel, 3)

/-- `IspTypeResolver::resolve_scalar_type`. -/
def resolve_scalar_type (_ts : TypeSystem) (_fuel : Nat) (ty : GqlType) (field : Name)
    (typeDef : ScalarTypeDef) : RustResult Resolved :=
  match field with
  | "kind" => .ok (Resolved.enum_value "SCALAR")
  | "name" => .ok (Resolved.string ty.name)
  | "description" => .ok (Resolved.string_opt typeDef.description)
  | "fields" => .ok Resolved.null
  | "interfaces" => .ok Resolved.null
  | "possibleTypes" => .ok Resolved.null
  | "enumValues" => .ok Resolved.null
  | "inputFields" => .ok Resolved.null
  | "ofType" => .ok Resolved.null
  | "specifiedByURL" => .ok (resolve_specified_by typeDef)
  | _ => .err (.msg "invalid list type field")

/-- `IspTypeResolver::resolve_object_type`. -/
def resolve_object_type (ts : TypeSystem) (fuel : Nat) (ty : GqlType) (field : Name)
    (typeDef : ObjectTypeDef) : RustResult Resolved :=
  match field with
  | "kind" => .ok (Resolved.enum_value "OBJECT")
  | "name" => .ok (Resolved.string ty.name)
  | "description" => .ok (Resolved.string_opt typeDef.description)
  | "fields" =>
      .ok (.array (typeDef.fields.map (fun f => .object (ispFieldResolver ts fuel f))))
  | "interfaces" =>
      .ok (.array (typeDef.implementsInterfaces.map
        (fun i => .object (ispTypeResolver ts fuel (.named i)))))
  | "possibleTypes" => .ok Resolved.null
  | "enumValues" => .ok Resolved.null
  | "inputFields" => .ok Resolved.null
  | "ofType" => .ok Resolved.null
  | "specifiedByURL" => .ok Resolved.null
  | _ => .err (.msg "invalid list type field")
  termination_by (fuel, 2)

/-- `IspTypeResolver::resolve_interface_type`. -/
def resolve_interface_type (ts : TypeSystem) (fuel : Nat) (ty : GqlType) (field : Name)
    (typeDef : InterfaceTypeDef) : RustResult Resolved :=
  match field with
  | "kind" => .ok (Resolved.enum_value "INTERFACE")
  | "name" => .ok (Resolved.string ty.name)
  | "description" => .ok (Resolved.string_opt typeDef.description)
  | "fields" =>
      .ok (.array (typeDef.fields.map (fun f => .object (ispFieldResolver ts fuel f))))
  | "interfaces" => .ok Resolved.null
  | "possibleTypes" => .ok (resolve_impl_possible_types ts fuel typeDef.name)
  | "enumValues" => .ok Resolved.null
  | "inputFields" => .ok Resolved.null
  | "ofType" => .ok Resolved.null
  | "specifiedByURL" => .ok Resolved.null
  | _ => .err (.msg "invalid list type field")
  termination_by (fuel, 2)

/-- `IspTypeResolver::resolve_impl_possible_types`. -/
def resolve_impl_possible_types (ts : TypeSystem) (fuel : Nat) (ifaceName : Name) :
    Resolved :=
  .array ((ts.objects.filter
      (fun kv => kv.2.implementsInterfaces.contains ifaceName)).map
    (fun kv => .object (ispTypeResolver ts fuel (.named kv.1))))
  termination_by (fuel, 1)

/-- `IspTypeResolver::resolve_union_type`. -/
def resolve_union_type (_ts : TypeSystem) (_fuel : Nat) (ty : GqlType) (field : Name)
    (typeDef : UnionTypeDef) : RustResult Resolved :=
  match field with
  | "kind" => .ok (Resolved.enum_value "UNION")
  | "name" => .ok (Resolved.string ty.name)
  | "description" => .ok (Resolved.string_opt typeDef.description)
  | "fields" => .ok Resolved.null
  | "interfaces" => .ok Resolved.null
  | "possibleTypes" => .ok Resolved.null
  | "enumValues" => .ok Resolved.null
  | "inputFields" => .ok Resolved.null
  | "ofType" => .ok Resolved.null
  | "specifiedByURL" => .ok Resolved.null
  | _ => .err (.msg "invalid list type field")

/-- `IspTypeResolver::resolve_enum_type`. -/
def resolve_enum_type (_ts : TypeSystem) (_fuel : Nat) (ty : GqlType) (field : Name)
    (typeDef : EnumTypeDef) : RustResult Resolved :=
  match field with
  | "kind" => .ok (Resolved.enum_value "ENUM")
  | "name" => .ok (Resolved.string ty.name)
  | "description" => .ok (Resolved.string_opt typeDef.description)
  | "fields" => .ok Resolved.null
  | "interfaces" => .ok Resolved.null
  | "possibleTypes" => .ok Resolved.null
  | "enumValues" =>
      .ok (.array (typeDef.values.map (fun v => .object (ispEnumValueResolver v))))
  | "inputFields" => .ok Resolved.null
  | "ofType" => .ok Resolved.null
  | "specifiedByURL" => .ok Resolved.null
  | _ => .err (.msg "invalid list type field")

/-- `IspTypeResolver::resolve_input_type`. -/
def resolve_input_type (_ts : TypeSystem) (_fuel : Nat) (ty : GqlType) (field : Name)
    (typeDef : InputObjectTypeDef) : RustResult Resolved :=
  match field with
  | "kind" => .ok (Resolved.enum_value "INPUT_OBJECT")
  | "name" => .ok (Resolved.string ty.name)
  | "description" => .ok (Resolved.string_opt typeDef.description)
  | "fields" => .ok Resolved.null
  | "interfaces" => .ok Resolved.null
  | "possibleTypes" => .ok Resolved.null
  | "enumValues" => .ok Resolved.null
  | "inputFields" => .ok Resolved.null
  | "ofType" => .ok Resolved.null
  | "specifiedByURL" => .ok Resolved.null
  | _ => .err (.msg "invalid list type field")

/-- `IspFieldResolver` (projections of a field definition). -/
def ispFieldResolver (ts : TypeSystem) : Nat → FieldDef → ObjResolver
  | 0, _ => .mk (.ok none) (fun _ => .fuelOut)
  | fuel + 1, fieldDef =>
    .mk (.ok none) (fun name =>
      match name with
      | "name" => .ok (Resolved.string fieldDef.name)
      | "description" => .ok (Resolved.string_opt fieldDef.description)
      | "args" =>
          .ok (.array (fieldDef.args.map
            (fun iv => .object (ispInputValueResolver ts fuel iv))))
      | "type" => .ok (.object (ispTypeResolver ts fuel fieldDef.ty))
      | "isDeprecated" => .ok (resolveIsDeprecated fieldDef.directives)
      | "deprecationReason" => .ok (resolveDeprecationReason fieldDef.directives)
      | _ => .ok Resolved.null)
  termination_by fuel _ => (fuel, 0)

/-- `IspInputValueResolver`. -/
def ispInputValueResolver (ts : TypeSystem) : Nat → InputValueDef → ObjResolver
  | 0, _ => .mk (.ok none) (fun _ => .fuelOut)
  | fuel + 1, inputValueDef =>
    .mk (.ok none) (fun name =>
      match name with
      | "name" => .ok (Resolved.string inputValueDef.name)
      | "description" => .ok (Resolved.string_opt inputValueDef.description)
      | "type" => .ok (.object (ispTypeResolver ts fuel inputValueDef.ty))
      | "defaultValue" =>
          .ok (Resolved.string_opt (inputValueDef.defaultValue.map hirValueDebug))
      | "isDeprecated" => .ok (resolveIsDeprecated inputValueDef.directives)
      | "deprecationReason" => .ok (resolveDeprecationReason inputValueDef.directives)
      | _ => .ok Resolved.null)
  termination_by fuel _ => (fuel, 0)
end

/-- `IspObjectResolver`: decorates a resolver with `__typename`
introspection; all other fields delegate to the wrapped resolver
(`resolve_type_name` keeps the trait default `Ok(None)`). -/
def ispObjectResolver (typeDef : ObjectTypeDef) (inner : ObjResolver) : ObjResolver :=
  .mk (.ok none) (fun name =>
    match name with
    | "__typename" => .ok (Resolved.string typeDef.name)
    | other => inner.resolveField other)

/-- `IspSchemaResolver`: the `__Schema` resolver; `description`,
`queryType`, `mutationType`, `subscriptionType` and `directives` are all
`todo!()` (panics) in the source. -/
def ispSchemaResolver (ts : TypeSystem) (fuel : Nat) : ObjResolver :=
  .mk (.ok none) (fun name =>
    match name with
    | "description" => .panicked
    | "types" =>
        .ok (.array (((ts.typeDefinitionsByName.map (·.2)).filter
            (fun ty => !(ty.name.startsWith "__"))).map
          (fun ty => .object (ispTypeResolver ts fuel (.named ty.name)))))
    | "queryType" => .panicked
    | "mutationType" => .panicked
    | "subscriptionType" => .panicked
    | "directives" => .panicked
    | invalid => .err (.msg ("invalid type field: " ++ invalid)))

/-- `IspRootResolver` (src/introspection.rs lines 34-52): decorates the
operation-root resolver; only `__schema` is intercepted, every other field
name — `__type` included — delegates to the wrapped resolver. -/
def ispRootResolver (ts : TypeSystem) (fuel : Nat) (inner : ObjResolver) : ObjResolver :=
  .mk (.ok none) (fun name =>
    match name with
    | "__schema" => .ok (.object (ispSchemaResolver ts fuel))
    | other => inner.resolveField other)

/-! ## Resolver context (src/resolver.rs): `Ctx`, variable substitution and
argument lookup -/

/-- `Ctx`: the per-field resolver context (the Rust field named `variables`
is spelled `variablesMap`). -/
structure Ctx where
  variablesMap : List (Name × ConstValue)
  field : Field

mutual
/-- `Ctx::resolve_vars`: substitute variables into an argument value.  The
nested `Object` and `List` branches call `self.resolve_vars(v).unwrap()`
(marked `//FIXME unwrap`), so a failing nested substitution panics instead
of returning the error; `Value::Int` goes through
`to_i32_checked().unwrap()` which panics out of the i32 range;
`Number::from_f64` (floats) is outside the embedding. -/
def Ctx.resolve_vars (ctx : Ctx) : HirValue → RustResult ConstValue
  | .variable var =>
    match (ctx.variablesMap.find? (fun kv => kv.1 == var)).map (·.2) with
    | some v => .ok v
    | none => .err (.msg ("undefined variable: " ++ var))
  | .object value =>
    match Ctx.resolveVarsFields ctx value with
    | .ok fields => .ok (.object fields)
    | .err _ => .panicked
    | .panicked => .panicked
    | .fuelOut => .fuelOut
  | .list value =>
    match Ctx.resolveVarsList ctx value with
    | .ok values => .ok (.list values)
    | .err _ => .panicked
    | .panicked => .panicked
    | .fuelOut => .fuelOut
  | .boolean b => .ok (.boolean b)
  | .string s => .ok (.string s)
  | .int i =>
      if -2147483648 ≤ i ∧ i ≤ 2147483647 then .ok (.number i) else .panicked
  | .enum v => .ok (.enum v)
  | .null => .ok .null

/-- The `.map(|(k, v)| (k, self.resolve_vars(v).unwrap()))` loop of the
`Object` branch: the `unwrap` turns any failing element into a panic. -/
def Ctx.resolveVarsFields (ctx : Ctx) :
    List (Name × HirValue) → RustResult (List (Name × ConstValue))
  | [] => .ok []
  | (k, v) :: rest =>
    match ctx.resolve_vars v with
    | .ok c =>
      match Ctx.resolveVarsFields ctx rest with
      | .ok cs => .ok ((k, c) :: cs)
      | .err _ => .panicked
      | .panicked => .panicked
      | .fuelOut => .fuelOut
    | .err _ => .panicked
    | .panicked => .panicked
    | .fuelOut => .fuelOut

/-- The `.map(|v| self.resolve_vars(v).unwrap())` loop of the `List`
branch. -/
def Ctx.resolveVarsList (ctx : Ctx) :
    List HirValue → RustResult (List ConstValue)
  | [] => .ok []
  | v :: rest =>
    match ctx.resolve_vars v with
    | .ok c =>
      match Ctx.resolveVarsList ctx rest with
      | .ok cs => .ok (c :: cs)
      | .err _ => .panicked
      | .panicked => .panicked
      | .fuelOut => .fuelOut
    | .err _ => .panicked
    | .panicked => .panicked
    | .fuelOut => .fuelOut
end

/-- `Ctx::try_arg`: find the argument node, substitute variables, then
convert (`T::try_from`, abstracted by `conv`); a conversion failure is
wrapped as an argument conversion error. -/
def Ctx.try_arg (ctx : Ctx) (conv : ConstValue → Except String α) (name : Name) :
    RustResult α :=
  match ctx.field.arguments.find? (fun a => a.1 == name) with
  | none => .err (.msg ("argument not found: " ++ name))
  | some a =>
    match ctx.resolve_vars a.2 with
    | .err e => .err e
    | .panicked => .panicked
    | .fuelOut => .fuelOut
    | .ok argConstV =>
      match conv argConstV with
      | .ok v => .ok v
      | .error e => .err (.msg ("argument conversion error: " ++ e))

/-- The eventual results of the element futures pushed into the
`FuturesOrdered` queue, in push order, mirroring the fuel accounting of
`resolveElems`. -/
def elemResults (fuel : Nat) (snapshot : Snapshot) (field : Field) :
    List Resolved → List (RustResult ConstValue)
  | [] => []
  | e :: rest =>
      resolve_to_value (fuel - 1) snapshot field e
        :: elemResults (fuel - 1) snapshot field rest

def pendN : Nat → List (Name × FieldTask) → List (Name × FieldTask)
  | 0, ts => ts
  | n + 1, ts => pendN n (stepTasks ts)

def okN : Nat → List (Name × FieldTask) → List (Name × ConstValue)
  | 0, _ => []
  | n + 1, ts => readyOk ts ++ okN n (stepTasks ts)

def errN : Nat → List (Name × FieldTask) → List (Name × ExecErr)
  | 0, _ => []
  | n + 1, ts => readyErr ts ++ errN n (stepTasks ts)

/-- The eventual ok-pairs of a task list, in list order. -/
def okPairs (ts : List (Name × FieldTask)) : List (Name × ConstValue) :=
  ts.filterMap (fun kt => match kt.2.result with
    | .ok v => some (kt.1, v)
    | .error _ => none)

def maxDelay (ts : List (Name × FieldTask)) : Nat :=
  (ts.map (fun kt => kt.2.delay)).foldr max 0

/-! ## Fixtures used by individual claims -/

/-- A plain Query object type for the fragment-cycle fixture. -/
def cyclicQueryTy : ObjectTypeDef := ⟨"Query", none, [], []⟩

/-- An execution context whose document contains two fragments on Query
that spread one another — the classic invalid-document cycle that
validation should reject but the collector must survive. -/
def cyclicCtx : ExecCtx :=
  ⟨⟨[("Query", .object cyclicQueryTy)], [], []⟩,
   [("A", ⟨"Query", [.fragmentSpread "B" []]⟩),
    ("B", ⟨"Query", [.fragmentSpread "A" []]⟩)], []⟩

/-! Fixtures for claim C4 (abstract-typed fields). -/

/-- A union `U = T1` and its member object type. -/
def unionU : UnionTypeDef := ⟨"U", none, ["T1"]⟩

def objT1 : ObjectTypeDef := ⟨"T1", none, [], []⟩

def unionSnap : Snapshot :=
  ⟨⟨[("U", .union unionU), ("T1", .object objT1)], [("T1", objT1)], []⟩, []⟩

/-- A field declared with the union type `U`. -/
def unionField : Field := .mk none "u" [] [] (some (.named "U")) []

/-- A sub-resolver that does resolve its concrete type name to the valid
union member `T1`. -/
def unionSubResolver : ObjResolver := .mk (.ok (some "T1")) (fun _ => .err (.msg "nah"))

/-! Fixtures for the C4 witness (an interface-typed field). -/

def ifaceI : InterfaceTypeDef := ⟨"I", none, []⟩

def objImpl : ObjectTypeDef := ⟨"Impl", none, [], []⟩

def ifaceSnap : Snapshot :=
  ⟨⟨[("I", .interface ifaceI), ("Impl", .object objImpl)], [("Impl", objImpl)], []⟩, []⟩

def ifaceField : Field := .mk none "i" [] [] (some (.named "I")) []

def noNameResolver : ObjResolver := .mk (.ok none) (fun _ => .err (.msg "nah"))

def implResolver : ObjResolver := .mk (.ok (some "Impl")) (fun _ => .err (.msg "nah"))

def ghostResolver : ObjResolver := .mk (.ok (some "Ghost")) (fun _ => .err (.msg "nah"))

/-! Fixtures for claim C5 (nested `__typename`). -/

def innerTy : ObjectTypeDef := ⟨"Inner", none, [], []⟩

def innerSnap : Snapshot := ⟨⟨[("Inner", .object innerTy)], [("Inner", innerTy)], []⟩, []⟩

/-- The nested selection `{ __typename }`. -/
def typenameField : Field := .mk none "__typename" [] [] (some (.named "String")) []

/-- The outer field `q : Inner` whose sub-selection asks for
`__typename`. -/
def outerField : Field := .mk none "q" [] [] (some (.named "Inner")) [.field typenameField]

/-- A user sub-resolver that (as user resolvers are entitled to) does not
implement `__typename`. -/
def plainUserResolver : ObjResolver :=
  .mk (.ok none) (fun n => .err (.msg ("unknown field: " ++ n)))

/-! Fixtures for claim C9 (the root introspection decorator). -/

def emptyTs : TypeSystem := ⟨[], [], []⟩

/-- A wrapped operation-root resolver with recognizable behaviour. -/
def markedRootResolver : ObjResolver :=
  .mk (.ok none) (fun n => .err (.msg ("inner resolver: " ++ n)))

/-! Fixtures for claim C10 (`Ctx::try_arg` and `resolve_vars`). -/

/-- A field node carrying the argument `arg: [$v]` — an unbound variable
inside a list literal. -/
def listArgField : Field := .mk none "f" [] [("arg", .list [.variable "v"])] none []

def intScalarSnap : Snapshot := ⟨⟨[("Int", .scalar ⟨"Int", none, []⟩)], [], []⟩, []⟩

def listField : Field := .mk none "xs" [] [] (some (.named "Int")) []

def c1SnapEmpty : Snapshot := ⟨⟨[], [], []⟩, []⟩

def c1QueryTy : ObjectTypeDef := ⟨"Query", none, [], []⟩

def c1FieldA : Field := .mk none "a" [] [] (some (.named "Int")) []

def c1FieldB : Field := .mk none "b" [] [] (some (.named "Int")) []

def c1Behavior : Name → Field → FieldTask := fun k _ =>
  if k = "a" then ⟨1, .ok (.string "va")⟩ else ⟨0, .ok (.string "vb")⟩

/-! ## Lemmas and claim theorems -/

/-! ## Shared helper lemmas -/

theorem collectInner_nil (ectx : ExecCtx) (ty : ObjectTypeDef) (fuel : Nat)
    (grouped : List (Name × List Field)) :
    collectInner ectx ty fuel [] grouped = .ok grouped := by
  cases fuel <;> rfl

theorem collectInnerFut_nil (snapshot : Snapshot) (ty : ObjectTypeDef) (fuel : Nat)
    (grouped : List (Name × List Field)) :
    collectInnerFut snapshot ty fuel [] grouped = .ok grouped := by
  cases fuel <;> rfl

theorem foSpec_acc (rs : List (RustResult ConstValue)) : ∀ acc,
    foSpec acc rs = match foSpec [] rs with
      | .ok vs => .ok (acc ++ vs)
      | .err e => .err e
      | .panicked => .panicked
      | .fuelOut => .fuelOut := by
  induction rs with
  | nil => intro acc; simp [foSpec]
  | cons r rest ih =>
    intro acc
    cases r with
    | ok v =>
      simp only [foSpec, List.nil_append]
      rw [ih (acc ++ [v]), ih [v]]
      cases foSpec [] rest <;> simp
    | err e => simp [foSpec]
    | panicked => simp [foSpec]
    | fuelOut => simp [foSpec]

theorem foSpec_map_ok (vs : List ConstValue) : ∀ acc,
    foSpec acc (vs.map RustResult.ok) = .ok (acc ++ vs) := by
  induction vs with
  | nil => intro acc; simp [foSpec]
  | cons v rest ih => intro acc; simp only [List.map, foSpec]; rw [ih]; simp

theorem foSpec_ok_elim (rs : List (RustResult ConstValue)) : ∀ vals,
    foSpec [] rs = .ok vals → rs = vals.map RustResult.ok := by
  induction rs with
  | nil =>
    intro vals h
    cases vals with
    | nil => rfl
    | cons v vs => simp [foSpec] at h
  | cons r rest ih =>
    intro vals h
    cases r with
    | ok v =>
      rw [show foSpec [] (RustResult.ok v :: rest) = foSpec [v] rest from rfl,
        foSpec_acc rest [v]] at h
      cases hrest : foSpec [] rest with
      | ok vs =>
        rw [hrest] at h
        simp at h
        rw [← h, ih vs hrest]
        rfl
      | err e => rw [hrest] at h; cases h
      | panicked => rw [hrest] at h; cases h
      | fuelOut => rw [hrest] at h; cases h
    | err e => cases h
    | panicked => cases h
    | fuelOut => cases h

theorem resolveElems_eq_foSpec (snapshot : Snapshot) (field : Field) :
    ∀ (arr : List Resolved) (fuel : Nat),
    resolveElems fuel snapshot field arr
      = foSpec [] (elemResults fuel snapshot field arr) := by
  intro arr
  induction arr with
  | nil => intro fuel; cases fuel <;> rfl
  | cons e rest ih =>
    intro fuel
    cases fuel with
    | zero => rfl
    | succ n =>
      have hE : elemResults (n + 1) snapshot field (e :: rest)
          = resolve_to_value n snapshot field e :: elemResults n snapshot field rest := rfl
      rw [hE]
      simp only [resolveElems]
      cases hr : resolve_to_value n snapshot field e with
      | ok v =>
        rw [ih n]
        rw [show foSpec [] (RustResult.ok v :: elemResults n snapshot field rest)
            = foSpec [v] (elemResults n snapshot field rest) from rfl,
          foSpec_acc (elemResults n snapshot field rest) [v]]
        cases foSpec [] (elemResults n snapshot field rest) <;> simp
      | err e2 => simp [foSpec]
      | panicked => simp [foSpec]
      | fuelOut => simp [foSpec]

theorem elemResults_length (snapshot : Snapshot) (field : Field) :
    ∀ (arr : List Resolved) (fuel : Nat),
    (elemResults fuel snapshot field arr).length = arr.length := by
  intro arr
  induction arr with
  | nil => intro fuel; rfl
  | cons e rest ih => intro fuel; simp only [elemResults, List.length_cons, ih]

theorem foDrain_done (ts : List FOElem) : ∀ acc r,
    foDrain ts acc = .done r → r = foSpec acc (ts.map (·.result)) := by
  induction ts with
  | nil =>
    intro acc r h
    simp only [foDrain] at h
    injection h with h1
    rw [← h1]
    rfl
  | cons t rest ih =>
    intro acc r h
    simp only [foDrain] at h
    by_cases ht : t.delay = 0
    · rw [if_pos ht] at h
      cases hres : t.result with
      | ok v =>
        rw [hres] at h
        have := ih (acc ++ [v]) r h
        rw [this, List.map_cons, hres]
        rfl
      | err e =>
        rw [hres] at h
        injection h with h1
        rw [← h1, List.map_cons, hres]
        rfl
      | panicked =>
        rw [hres] at h
        injection h with h1
        rw [← h1, List.map_cons, hres]
        rfl
      | fuelOut =>
        rw [hres] at h
        injection h with h1
        rw [← h1, List.map_cons, hres]
        rfl
    · rw [if_neg ht] at h
      cases h

theorem foDrain_cont (ts : List FOElem) : ∀ acc p acc2,
    foDrain ts acc = .cont p acc2 →
    (∀ t ∈ p, t ∈ ts)
    ∧ foSpec acc2 (p.map (·.result)) = foSpec acc (ts.map (·.result))
    ∧ ∃ h tl, p = h :: tl ∧ h.delay ≠ 0 := by
  induction ts with
  | nil => intro acc p acc2 h; cases h
  | cons t rest ih =>
    intro acc p acc2 h
    simp only [foDrain] at h
    by_cases ht : t.delay = 0
    · rw [if_pos ht] at h
      cases hres : t.result with
      | ok v =>
        rw [hres] at h
        obtain ⟨hmem, heq, hhead⟩ := ih (acc ++ [v]) p acc2 h
        refine ⟨fun x hx => List.mem_cons_of_mem t (hmem x hx), ?_, hhead⟩
        rw [heq, List.map_cons, hres]
        rfl
      | err e => rw [hres] at h; cases h
      | panicked => rw [hres] at h; cases h
      | fuelOut => rw [hres] at h; cases h
    · rw [if_neg ht] at h
      injection h with h1 h2
      subst h1; subst h2
      exact ⟨fun x hx => hx, rfl, t, rest, rfl, ht⟩

theorem foDecr_map_result (ts : List FOElem) :
    (foDecr ts).map (·.result) = ts.map (·.result) := by
  simp [foDecr]

theorem foDecr_delay_le (ts : List FOElem) (n : Nat)
    (hall : ∀ t ∈ ts, t.delay ≤ n + 1) :
    ∀ t ∈ foDecr ts, t.delay ≤ n := by
  intro t ht
  simp only [foDecr, List.mem_map] at ht
  obtain ⟨s, hs, rfl⟩ := ht
  have := hall s hs
  show s.delay - 1 ≤ n
  omega

theorem foRun_eq_foSpec : ∀ (n : Nat) (ts : List FOElem) (acc : List ConstValue),
    (∀ t ∈ ts, t.delay ≤ n) →
    foRun (n + 1) ts acc = foSpec acc (ts.map (·.result)) := by
  intro n
  induction n with
  | zero =>
    intro ts acc hall
    rw [foRun.eq_2]
    cases hd : foDrain (foDecr ts) acc with
    | done r => rw [foDrain_done _ _ _ hd, foDecr_map_result]
    | cont p a2 =>
      exfalso
      obtain ⟨hmem, _, h, tl, hp, hne⟩ := foDrain_cont _ _ _ _ hd
      have hin : h ∈ foDecr ts := hmem h (by rw [hp]; exact List.mem_cons_self h tl)
      simp only [foDecr, List.mem_map] at hin
      obtain ⟨s, hs, heq⟩ := hin
      have := hall s hs
      apply hne
      rw [← heq]
      simp
      omega
  | succ n ihn =>
    intro ts acc hall
    rw [foRun.eq_2]
    cases hd : foDrain (foDecr ts) acc with
    | done r => rw [foDrain_done _ _ _ hd, foDecr_map_result]
    | cont p a2 =>
      obtain ⟨hmem, heq, _⟩ := foDrain_cont _ _ _ _ hd
      show foRun (n + 1) p a2 = foSpec acc (ts.map (·.result))
      rw [ihn p a2 (fun t ht => foDecr_delay_le ts n hall t (hmem t ht)), heq,
        foDecr_map_result]

theorem zipWith_mk_map_result : ∀ (ds : List Nat) (rs : List (RustResult ConstValue)),
    ds.length = rs.length →
    (List.zipWith (fun d r => FOElem.mk d r) ds rs).map (·.result) = rs := by
  intro ds
  induction ds with
  | nil =>
    intro rs h
    cases rs with
    | nil => rfl
    | cons r rt => simp at h
  | cons d dt ih =>
    intro rs h
    cases rs with
    | nil => simp at h
    | cons r rt =>
      simp only [List.zipWith_cons_cons, List.map_cons]
      rw [ih rt (by simpa using h)]

theorem zipWith_mk_delay_le : ∀ (ds : List Nat) (rs : List (RustResult ConstValue))
    (n : Nat), (∀ d ∈ ds, d ≤ n) →
    ∀ t ∈ List.zipWith (fun d r => FOElem.mk d r) ds rs, t.delay ≤ n := by
  intro ds
  induction ds with
  | nil => intro rs n _ t ht; simp at ht
  | cons d dt ih =>
    intro rs n hall t ht
    cases rs with
    | nil => simp at ht
    | cons r rt =>
      simp only [List.zipWith_cons_cons, List.mem_cons] at ht
      cases ht with
      | inl h => rw [h]; exact hall d (List.mem_cons_self d dt)
      | inr h =>
        exact ih rt n (fun x hx => hall x (List.mem_cons_of_mem d hx)) t h

theorem runPolls_closed : ∀ (n : Nat) (ts : List (Name × FieldTask))
    (out : List (Name × ConstValue)) (errs : List (Name × ExecErr)),
    runPolls n ⟨ts, out, errs⟩ = ⟨pendN n ts, out ++ okN n ts, errs ++ errN n ts⟩ := by
  intro n
  induction n with
  | zero => intro ts out errs; simp [runPolls, pendN, okN, errN]
  | succ k ih =>
    intro ts out errs
    show runPolls k (pollStep ⟨ts, out, errs⟩) = _
    rw [show pollStep ⟨ts, out, errs⟩
        = ⟨stepTasks ts, out ++ readyOk ts, errs ++ readyErr ts⟩ from rfl, ih]
    simp [pendN, okN, errN, List.append_assoc]

theorem mem_stepTasks {kt2 : Name × FieldTask} {ts : List (Name × FieldTask)} :
    kt2 ∈ stepTasks ts ↔
    ∃ kt ∈ ts, kt.2.delay ≠ 0 ∧ kt2 = (kt.1, ⟨kt.2.delay - 1, kt.2.result⟩) := by
  simp only [stepTasks, List.mem_map, List.mem_filter]
  constructor
  · rintro ⟨kt, ⟨hmem, hd⟩, rfl⟩
    exact ⟨kt, hmem, by simpa using hd, rfl⟩
  · rintro ⟨kt, hmem, hd, rfl⟩
    exact ⟨kt, ⟨hmem, by simpa using hd⟩, rfl⟩

theorem stepTasks_delay_le {ts : List (Name × FieldTask)} {n : Nat}
    (hall : ∀ kt ∈ ts, kt.2.delay ≤ n + 1) :
    ∀ kt ∈ stepTasks ts, kt.2.delay ≤ n := by
  intro kt hkt
  obtain ⟨s, hs, _, rfl⟩ := mem_stepTasks.1 hkt
  have := hall s hs
  show s.2.delay - 1 ≤ n
  omega

theorem stepTasks_of_all_zero {ts : List (Name × FieldTask)}
    (hall : ∀ kt ∈ ts, kt.2.delay ≤ 0) : stepTasks ts = [] := by
  have : ts.filter (fun kt => kt.2.delay != 0) = [] := by
    rw [List.filter_eq_nil_iff]
    intro kt hkt
    have := hall kt hkt
    simp
    omega
  rw [stepTasks, this]
  rfl

theorem pendN_empty : ∀ (d : Nat) (ts : List (Name × FieldTask)),
    (∀ kt ∈ ts, kt.2.delay ≤ d) → pendN (d + 1) ts = [] := by
  intro d
  induction d with
  | zero =>
    intro ts hall
    show pendN 0 (stepTasks ts) = []
    rw [pendN, stepTasks_of_all_zero hall]
  | succ k ih =>
    intro ts hall
    show pendN (k + 1) (stepTasks ts) = []
    exact ih (stepTasks ts) (stepTasks_delay_le hall)

theorem pendN_survival : ∀ (n : Nat) (ts : List (Name × FieldTask))
    (kt : Name × FieldTask), kt ∈ ts → n ≤ kt.2.delay →
    (kt.1, ⟨kt.2.delay - n, kt.2.result⟩) ∈ pendN n ts := by
  intro n
  induction n with
  | zero =>
    intro ts kt hmem _
    simpa [pendN] using hmem
  | succ k ih =>
    intro ts kt hmem hle
    show (kt.1, ⟨kt.2.delay - (k + 1), kt.2.result⟩) ∈ pendN k (stepTasks ts)
    have hstep : (kt.1, (⟨kt.2.delay - 1, kt.2.result⟩ : FieldTask)) ∈ stepTasks ts := by
      rw [mem_stepTasks]
      exact ⟨kt, hmem, by omega, rfl⟩
    have := ih (stepTasks ts) (kt.1, ⟨kt.2.delay - 1, kt.2.result⟩) hstep
      (by show k ≤ kt.2.delay - 1; omega)
    simpa [Nat.sub_sub, Nat.add_comm] using this

theorem mem_readyOk {ts : List (Name × FieldTask)} {kt : Name × FieldTask} {v : ConstValue}
    (hmem : kt ∈ ts) (hd : kt.2.delay = 0) (hres : kt.2.result = .ok v) :
    (kt.1, v) ∈ readyOk ts := by
  rw [readyOk, List.mem_filterMap]
  refine ⟨kt, ?_, ?_⟩
  · rw [List.mem_filter]
    exact ⟨hmem, by simp [hd]⟩
  · rw [hres]

theorem mem_readyErr {ts : List (Name × FieldTask)} {kt : Name × FieldTask} {e : ExecErr}
    (hmem : kt ∈ ts) (hd : kt.2.delay = 0) (hres : kt.2.result = .error e) :
    (kt.1, e) ∈ readyErr ts := by
  rw [readyErr, List.mem_filterMap]
  refine ⟨kt, ?_, ?_⟩
  · rw [List.mem_filter]
    exact ⟨hmem, by simp [hd]⟩
  · rw [hres]

theorem okN_conserve : ∀ (n : Nat) (ts : List (Name × FieldTask))
    (kt : Name × FieldTask) (v : ConstValue), kt ∈ ts → kt.2.delay < n →
    kt.2.result = .ok v → (kt.1, v) ∈ okN n ts := by
  intro n
  induction n with
  | zero => intro ts kt v _ h _; omega
  | succ k ih =>
    intro ts kt v hmem hlt hres
    show (kt.1, v) ∈ readyOk ts ++ okN k (stepTasks ts)
    rw [List.mem_append]
    by_cases hd : kt.2.delay = 0
    · exact Or.inl (mem_readyOk hmem hd hres)
    · refine Or.inr ?_
      have hstep : (kt.1, (⟨kt.2.delay - 1, kt.2.result⟩ : FieldTask)) ∈ stepTasks ts := by
        rw [mem_stepTasks]
        exact ⟨kt, hmem, hd, rfl⟩
      exact ih (stepTasks ts) (kt.1, ⟨kt.2.delay - 1, kt.2.result⟩) v hstep
        (by show kt.2.delay - 1 < k; omega) hres

theorem errN_conserve : ∀ (n : Nat) (ts : List (Name × FieldTask))
    (kt : Name × FieldTask) (e : ExecErr), kt ∈ ts → kt.2.delay < n →
    kt.2.result = .error e → (kt.1, e) ∈ errN n ts := by
  intro n
  induction n with
  | zero => intro ts kt e _ h _; omega
  | succ k ih =>
    intro ts kt e hmem hlt hres
    show (kt.1, e) ∈ readyErr ts ++ errN k (stepTasks ts)
    rw [List.mem_append]
    by_cases hd : kt.2.delay = 0
    · exact Or.inl (mem_readyErr hmem hd hres)
    · refine Or.inr ?_
      have hstep : (kt.1, (⟨kt.2.delay - 1, kt.2.result⟩ : FieldTask)) ∈ stepTasks ts := by
        rw [mem_stepTasks]
        exact ⟨kt, hmem, hd, rfl⟩
      exact ih (stepTasks ts) (kt.1, ⟨kt.2.delay - 1, kt.2.result⟩) e hstep
        (by show kt.2.delay - 1 < k; omega) hres

theorem errN_nil : ∀ (n : Nat) (ts : List (Name × FieldTask)),
    (∀ kt ∈ ts, ∃ v, kt.2.result = .ok v) → errN n ts = [] := by
  intro n
  induction n with
  | zero => intro ts _; rfl
  | succ k ih =>
    intro ts hall
    show readyErr ts ++ errN k (stepTasks ts) = []
    have h1 : readyErr ts = [] := by
      rw [readyErr, List.filterMap_eq_nil_iff]
      intro kt hkt
      obtain ⟨v, hv⟩ := hall kt (List.mem_filter.1 hkt).1
      rw [hv]
    have h2 : errN k (stepTasks ts) = [] := by
      refine ih (stepTasks ts) ?_
      intro kt hkt
      obtain ⟨s, hs, _, rfl⟩ := mem_stepTasks.1 hkt
      exact hall s hs
    rw [h1, h2]
    rfl

/-- Each delay-0 task contributes exactly one entry, to the output map or
to the error map. -/
theorem readyOk_readyErr_length (ts : List (Name × FieldTask)) :
    (readyOk ts).length + (readyErr ts).length
      = (ts.filter (fun kt => kt.2.delay == 0)).length := by
  rw [readyOk, readyErr]
  generalize ts.filter (fun kt => kt.2.delay == 0) = l
  induction l with
  | nil => rfl
  | cons kt rest ih =>
    cases hres : kt.2.result with
    | ok v => simp only [List.filterMap_cons, hres, List.length_cons]; omega
    | error e => simp only [List.filterMap_cons, hres, List.length_cons]; omega

theorem stepTasks_length (ts : List (Name × FieldTask)) :
    (stepTasks ts).length = (ts.filter (fun kt => kt.2.delay != 0)).length := by
  rw [stepTasks, List.length_map]

theorem filter_zero_partition_length (ts : List (Name × FieldTask)) :
    (ts.filter (fun kt => kt.2.delay == 0)).length
      + (ts.filter (fun kt => kt.2.delay != 0)).length = ts.length := by
  induction ts with
  | nil => rfl
  | cons kt rest ih =>
    by_cases hd : kt.2.delay = 0 <;>
      simp [List.filter_cons, beq_iff_eq, bne_iff_ne, hd] <;> omega

theorem counts_conserve : ∀ (n : Nat) (ts : List (Name × FieldTask)),
    (okN n ts).length + (errN n ts).length + (pendN n ts).length = ts.length := by
  intro n
  induction n with
  | zero => intro ts; simp [okN, errN, pendN]
  | succ k ih =>
    intro ts
    show (readyOk ts ++ okN k (stepTasks ts)).length
        + (readyErr ts ++ errN k (stepTasks ts)).length
        + (pendN k (stepTasks ts)).length = ts.length
    simp only [List.length_append]
    have h1 := ih (stepTasks ts)
    have h2 := readyOk_readyErr_length ts
    have h3 := stepTasks_length ts
    have h4 := filter_zero_partition_length ts
    omega

theorem okPairs_stepTasks (ts : List (Name × FieldTask)) :
    okPairs (stepTasks ts) = okPairs (ts.filter (fun kt => kt.2.delay != 0)) := by
  rw [stepTasks, okPairs, okPairs, List.filterMap_map]
  rfl

theorem readyOk_eq_okPairs (ts : List (Name × FieldTask)) :
    readyOk ts = okPairs (ts.filter (fun kt => kt.2.delay == 0)) := rfl

theorem sorted_partition : ∀ (ts : List (Name × FieldTask)),
    List.Pairwise (fun a b : Name × FieldTask => a.2.delay ≤ b.2.delay) ts →
    ts.filter (fun kt => kt.2.delay == 0) ++ ts.filter (fun kt => kt.2.delay != 0)
      = ts := by
  intro ts
  induction ts with
  | nil => intro _; rfl
  | cons kt rest ih =>
    intro hs
    have hrest := (List.pairwise_cons.1 hs).2
    have hhead := (List.pairwise_cons.1 hs).1
    by_cases hd : kt.2.delay = 0
    · simp only [List.filter_cons, beq_iff_eq, bne_iff_ne, hd]
      simp only [if_true, ne_eq, not_true_eq_false, ite_false, List.cons_append]
      rw [ih hrest]
    · have h0 : rest.filter (fun kt => kt.2.delay == 0) = [] := by
        rw [List.filter_eq_nil_iff]
        intro x hx
        have := hhead x hx
        simp only [beq_iff_eq, decide_eq_true_eq]
        omega
      have h2 : rest.filter (fun kt => kt.2.delay != 0) = rest := by
        rw [List.filter_eq_self]
        intro x hx
        have := hhead x hx
        simp only [bne_iff_ne, ne_eq, decide_eq_true_eq]
        omega
      simp only [List.filter_cons, beq_iff_eq, bne_iff_ne, hd, h0, h2]
      simp [hd]

theorem stepTasks_sorted {ts : List (Name × FieldTask)}
    (hs : List.Pairwise (fun a b : Name × FieldTask => a.2.delay ≤ b.2.delay) ts) :
    List.Pairwise (fun a b : Name × FieldTask => a.2.delay ≤ b.2.delay)
      (stepTasks ts) := by
  rw [stepTasks]
  refine List.Pairwise.map _ ?_ (List.Pairwise.filter _ hs)
  intro a b h
  show a.2.delay - 1 ≤ b.2.delay - 1
  omega

theorem okN_sorted_order : ∀ (n : Nat) (ts : List (Name × FieldTask)),
    List.Pairwise (fun a b : Name × FieldTask => a.2.delay ≤ b.2.delay) ts →
    okN n ts ++ okPairs (pendN n ts) = okPairs ts := by
  intro n
  induction n with
  | zero => intro ts _; rfl
  | succ k ih =>
    intro ts hs
    show (readyOk ts ++ okN k (stepTasks ts)) ++ okPairs (pendN k (stepTasks ts))
        = okPairs ts
    rw [List.append_assoc, ih (stepTasks ts) (stepTasks_sorted hs),
      okPairs_stepTasks, readyOk_eq_okPairs]
    simp only [okPairs]
    rw [← List.filterMap_append, sorted_partition ts hs]

theorem okPairs_keys : ∀ (ts : List (Name × FieldTask)),
    (∀ kt ∈ ts, ∃ v, kt.2.result = .ok v) →
    (okPairs ts).map Prod.fst = ts.map Prod.fst := by
  intro ts
  induction ts with
  | nil => intro _; rfl
  | cons kt rest ih =>
    intro hall
    obtain ⟨v, hv⟩ := hall kt (List.mem_cons_self kt rest)
    have ih2 := ih (fun x hx => hall x (List.mem_cons_of_mem kt hx))
    simp only [okPairs, List.filterMap_cons, hv, List.map_cons] at ih2 ⊢
    rw [ih2]

theorem delay_le_maxDelay : ∀ (ts : List (Name × FieldTask)) (kt : Name × FieldTask),
    kt ∈ ts → kt.2.delay ≤ maxDelay ts := by
  intro ts
  induction ts with
  | nil => intro kt h; cases h
  | cons t rest ih =>
    intro kt h
    rw [List.mem_cons] at h
    show kt.2.delay ≤ max t.2.delay ((rest.map (fun kt => kt.2.delay)).foldr max 0)
    cases h with
    | inl h => rw [h]; exact Nat.le_max_left _ _
    | inr h => exact le_trans (ih kt h) (Nat.le_max_right _ _)

theorem buildFieldFuts_keys (behavior : Name → Field → FieldTask) :
    ∀ (collected : List (Name × List Field)) (tasks : List (Name × FieldTask)),
    buildFieldFuts behavior collected = .ok tasks →
    tasks.map Prod.fst = collected.map Prod.fst := by
  intro collected
  induction collected with
  | nil =>
    intro tasks h
    injection h with h1
    rw [← h1]
    rfl
  | cons entry rest ih =>
    intro tasks h
    obtain ⟨key, fields⟩ := entry
    cases fields with
    | nil => simp [buildFieldFuts] at h
    | cons f ftl =>
      simp only [buildFieldFuts] at h
      cases hrest : buildFieldFuts behavior rest with
      | ok tl =>
        rw [hrest] at h
        injection h with h1
        rw [← h1]
        simp only [List.map_cons]
        rw [ih tl hrest]
      | error e => rw [hrest] at h; cases h

theorem pollReady_none_of_pending {s : SelState} (h : s.fieldFuts ≠ []) :
    pollReady s = none := by
  rw [pollReady, if_neg]
  simpa using h

theorem collect_cyclic_aux : ∀ fuel grouped,
    collectInner cyclicCtx cyclicQueryTy fuel [.fragmentSpread "A" []] grouped
      = .fuelOut ∧
    collectInner cyclicCtx cyclicQueryTy fuel [.fragmentSpread "B" []] grouped
      = .fuelOut := by
  intro fuel
  induction fuel with
  | zero => intro grouped; exact ⟨rfl, rfl⟩
  | succ n ih =>
    intro grouped
    have stepA : collectInner cyclicCtx cyclicQueryTy (n + 1)
        [Selection.fragmentSpread "A" []] grouped =
        (match collectInner cyclicCtx cyclicQueryTy n
            [Selection.fragmentSpread "B" []] grouped with
         | RustResult.err e => RustResult.err e
         | RustResult.panicked => RustResult.panicked
         | RustResult.fuelOut => RustResult.fuelOut
         | RustResult.ok grouped2 =>
             collectInner cyclicCtx cyclicQueryTy n [] grouped2) := rfl
    have stepB : collectInner cyclicCtx cyclicQueryTy (n + 1)
        [Selection.fragmentSpread "B" []] grouped =
        (match collectInner cyclicCtx cyclicQueryTy n
            [Selection.fragmentSpread "A" []] grouped with
         | RustResult.err e => RustResult.err e
         | RustResult.panicked => RustResult.panicked
         | RustResult.fuelOut => RustResult.fuelOut
         | RustResult.ok grouped2 =>
             collectInner cyclicCtx cyclicQueryTy n [] grouped2) := rfl
    refine ⟨?_, ?_⟩
    · rw [stepA, (ih grouped).2]
    · rw [stepB, (ih grouped).1]

/-- Claim C1, counterexample: the claim promises the output object's key
order equals the collection order for every completion order.  Collecting
`{ a b }` yields keys `a, b`; if the field future for `a` needs two polls
while `b` is ready on the first, the `retain`-based `poll` inserts `b`
first, producing key order `b, a`. -/
theorem c1_counterexample :
    collect_fields_fut c1SnapEmpty 2 [.field c1FieldA, .field c1FieldB] c1QueryTy
      = .ok [("a", [c1FieldA]), ("b", [c1FieldB])]
  ∧ selectionSetNew [("a", [c1FieldA]), ("b", [c1FieldB])] c1Behavior
      = .ok ⟨[("a", ⟨1, .ok (.string "va")⟩), ("b", ⟨0, .ok (.string "vb")⟩)], [], []⟩
  ∧ pollReady (runPolls 2
        ⟨[("a", ⟨1, .ok (.string "va")⟩), ("b", ⟨0, .ok (.string "vb")⟩)], [], []⟩)
      = some (.ok (.object [("b", .string "vb"), ("a", .string "va")]))
  ∧ (["b", "a"] : List Name) ≠ ["a", "b"] :=
  ⟨rfl, rfl, rfl, by decide⟩

/-- Claim C1 as amended: the output object's keys appear in completion
order (poll round, then collection order within a round), which equals the
first-seen collection order only when field tasks complete in
non-decreasing poll rounds along the collection order — in particular when
every resolver is ready in the same round — and not for every completion
order (see the counterexample). -/
theorem c1_key_order_amended (collected : List (Name × List Field))
    (behavior : Name → Field → FieldTask) (tasks : List (Name × FieldTask))
    (hnew : buildFieldFuts behavior collected = .ok tasks)
    (hsorted : List.Pairwise (fun a b : Name × FieldTask => a.2.delay ≤ b.2.delay) tasks)
    (hok : ∀ kt ∈ tasks, ∃ v, kt.2.result = .ok v) :
    ∃ m, pollReady (runPolls (maxDelay tasks + 1) ⟨tasks, [], []⟩)
        = some (.ok (.object m))
      ∧ m.map Prod.fst = collected.map Prod.fst := by
  have hpend : pendN (maxDelay tasks + 1) tasks = [] :=
    pendN_empty _ tasks (delay_le_maxDelay tasks)
  refine ⟨okN (maxDelay tasks + 1) tasks, ?_, ?_⟩
  · rw [runPolls_closed, pollReady]
    rw [if_pos (by simpa using hpend)]
    rw [if_pos]
    · simp
    · simp [errN_nil _ tasks hok]
  · have horder := okN_sorted_order (maxDelay tasks + 1) tasks hsorted
    rw [hpend] at horder
    simp only [okPairs, List.filterMap_nil, List.append_nil] at horder
    rw [show okN (maxDelay tasks + 1) tasks = okPairs tasks from horder,
      okPairs_keys tasks hok, buildFieldFuts_keys behavior collected tasks hnew]

theorem c1_key_order_amended_witness :
    (buildFieldFuts c1Behavior [("b", [c1FieldB]), ("a", [c1FieldA])]
        = .ok [("b", ⟨0, .ok (.string "vb")⟩), ("a", ⟨1, .ok (.string "va")⟩)])
  ∧ (∃ m, pollReady (runPolls
        (maxDelay [("b", ⟨0, .ok (.string "vb")⟩), ("a", ⟨1, .ok (.string "va")⟩)] + 1)
        ⟨[("b", ⟨0, .ok (.string "vb")⟩), ("a", ⟨1, .ok (.string "va")⟩)], [], []⟩)
        = some (.ok (.object m))
      ∧ m.map Prod.fst = [("b", [c1FieldB]), ("a", [c1FieldA])].map Prod.fst) :=
  ⟨rfl,
   c1_key_order_amended [("b", [c1FieldB]), ("a", [c1FieldA])] c1Behavior
     [("b", ⟨0, .ok (.string "vb")⟩), ("a", ⟨1, .ok (.string "va")⟩)] rfl
     (by simp)
     (by intro kt hmem
         rw [List.mem_cons, List.mem_singleton] at hmem
         cases hmem with
         | inl h => exact ⟨.string "vb", by rw [h]⟩
         | inr h => exact ⟨.string "va", by rw [h]⟩)⟩

/-- Claim C2: a selection-set execution stays `Pending` while any field
task is unsettled (an early field error does not cancel sibling tasks,
whose values still reach the output map); once every task has settled it
completes, with the aggregate `field errors` error if at least one task
errored, and otherwise with an `Object` holding exactly one entry per
response key. -/
theorem c2_settlement_and_aggregation (tasks : List (Name × FieldTask)) :
    (∀ kt ∈ tasks, ∀ n, n ≤ kt.2.delay →
        pollReady (runPolls n ⟨tasks, [], []⟩) = none)
  ∧ (runPolls (maxDelay tasks + 1) ⟨tasks, [], []⟩).fieldFuts = []
  ∧ ((∃ kt ∈ tasks, ∃ e, kt.2.result = .error e) →
      ∃ errs, errs ≠ [] ∧
        pollReady (runPolls (maxDelay tasks + 1) ⟨tasks, [], []⟩)
          = some (.error (.fieldErrors errs))
        ∧ (∀ kt ∈ tasks, ∀ v, kt.2.result = .ok v →
            (kt.1, v) ∈ (runPolls (maxDelay tasks + 1) ⟨tasks, [], []⟩).outputMap))
  ∧ ((∀ kt ∈ tasks, ∃ v, kt.2.result = .ok v) →
      ∃ m, pollReady (runPolls (maxDelay tasks + 1) ⟨tasks, [], []⟩)
          = some (.ok (.object m))
        ∧ m.length = tasks.length
        ∧ ∀ kt ∈ tasks, ∀ v, kt.2.result = .ok v → (kt.1, v) ∈ m) := by
  have hclosed := runPolls_closed
  have hN : ∀ kt ∈ tasks, kt.2.delay ≤ maxDelay tasks :=
    delay_le_maxDelay tasks
  have hpend : pendN (maxDelay tasks + 1) tasks = [] := pendN_empty _ tasks hN
  refine ⟨?_, ?_, ?_, ?_⟩
  · intro kt hmem n hle
    apply pollReady_none_of_pending
    rw [hclosed n tasks [] []]
    show pendN n tasks ≠ []
    intro hempty
    have hsv := pendN_survival n tasks kt hmem hle
    rw [hempty] at hsv
    cases hsv
  · rw [hclosed]
    exact hpend
  · rintro ⟨kt, hmem, e, he⟩
    refine ⟨errN (maxDelay tasks + 1) tasks, ?_, ?_, ?_⟩
    · intro hnil
      have := errN_conserve (maxDelay tasks + 1) tasks kt e hmem
        (by have := hN kt hmem; omega) he
      rw [hnil] at this
      cases this
    · rw [hclosed, pollReady]
      rw [if_pos (by simpa using hpend)]
      rw [if_neg]
      · simp
      · have := errN_conserve (maxDelay tasks + 1) tasks kt e hmem
          (by have := hN kt hmem; omega) he
        simp only [List.nil_append]
        intro hnil
        rw [List.isEmpty_iff] at hnil
        rw [hnil] at this
        cases this
    · intro kt2 hmem2 v hres
      rw [hclosed]
      show (kt2.1, v) ∈ [] ++ okN (maxDelay tasks + 1) tasks
      rw [List.nil_append]
      exact okN_conserve _ tasks kt2 v hmem2 (by have := hN kt2 hmem2; omega) hres
  · intro hall
    refine ⟨okN (maxDelay tasks + 1) tasks, ?_, ?_, ?_⟩
    · rw [hclosed, pollReady]
      rw [if_pos (by simpa using hpend)]
      rw [if_pos]
      · simp
      · simp [errN_nil _ tasks hall]
    · have hc := counts_conserve (maxDelay tasks + 1) tasks
      rw [errN_nil _ tasks hall, hpend] at hc
      simpa using hc
    · intro kt hmem v hres
      exact okN_conserve _ tasks kt v hmem (by have := hN kt hmem; omega) hres

theorem c2_settlement_and_aggregation_witness :
    ∃ m, pollReady (runPolls (maxDelay [("x", ⟨1, .ok (.number 7)⟩)] + 1)
        ⟨[("x", ⟨1, .ok (.number 7)⟩)], [], []⟩)
      = some (.ok (.object m))
    ∧ m.length = ([("x", (⟨1, .ok (.number 7)⟩ : FieldTask))] : List (Name × FieldTask)).length
    ∧ ∀ kt ∈ ([("x", (⟨1, .ok (.number 7)⟩ : FieldTask))] : List (Name × FieldTask)),
        ∀ v, kt.2.result = .ok v → (kt.1, v) ∈ m :=
  (c2_settlement_and_aggregation [("x", ⟨1, .ok (.number 7)⟩)]).2.2.2
    (by intro kt hmem; rw [List.mem_singleton] at hmem
        exact ⟨.number 7, by rw [hmem]⟩)

-- C1 counterexample fixtures

/-- Claim C3: for a field whose resolver returns `Array(elems)`, the
element futures are pushed into a `FuturesOrdered` in element order and
collected with `try_collect`: the fold `resolveElems` equals the
order-insensitive specification `foSpec` over the per-element results; an
`ok` outcome carries exactly one value per input element with the i-th
value being the i-th element's resolution, and is impossible as soon as any
element fails; and the operational `FuturesOrdered` machine `foRun` yields
the same outcome for every assignment of completion delays. -/
theorem c3_list_order_and_errors (fuel : Nat) (snapshot : Snapshot) (field : Field)
    (fieldTy : GqlType) (td : TypeDef) (arr : List Resolved)
    (h1 : field.fieldType = some fieldTy)
    (h2 : snapshot.findTypeDefinitionByName fieldTy.name = some td) :
    (resolveElems fuel snapshot field arr
        = foSpec [] (elemResults fuel snapshot field arr))
  ∧ (elemResults fuel snapshot field arr).length = arr.length
  ∧ (∀ vals, resolveElems fuel snapshot field arr = .ok vals →
      resolve_to_value (fuel + 1) snapshot field (.array arr) = .ok (.list vals)
        ∧ elemResults fuel snapshot field arr = vals.map RustResult.ok
        ∧ vals.length = arr.length)
  ∧ (∀ e, resolveElems fuel snapshot field arr = .err e →
      resolve_to_value (fuel + 1) snapshot field (.array arr) = .err e)
  ∧ (∀ r ∈ elemResults fuel snapshot field arr, (∀ v, r ≠ .ok v) →
      ∀ vals, resolveElems fuel snapshot field arr ≠ .ok vals)
  ∧ (∀ (ds : List Nat) (n : Nat), ds.length = arr.length → (∀ d ∈ ds, d ≤ n) →
      foRun (n + 1)
          (List.zipWith (fun d r => FOElem.mk d r) ds
            (elemResults fuel snapshot field arr)) []
        = resolveElems fuel snapshot field arr) := by
  have hlen := elemResults_length snapshot field arr fuel
  have hspec := resolveElems_eq_foSpec snapshot field arr fuel
  have hmapok : ∀ vals, resolveElems fuel snapshot field arr = .ok vals →
      elemResults fuel snapshot field arr = vals.map RustResult.ok := by
    intro vals hv
    exact foSpec_ok_elim _ vals (hspec ▸ hv)
  refine ⟨hspec, hlen, ?_, ?_, ?_, ?_⟩
  · intro vals hv
    have hm := hmapok vals hv
    refine ⟨?_, hm, ?_⟩
    · simp only [resolve_to_value, h1, h2]
      rw [hv]
    · have := hlen
      rw [hm] at this
      simpa using this
  · intro e he
    simp only [resolve_to_value, h1, h2]
    rw [he]
  · intro r hr hne vals hv
    have hm := hmapok vals hv
    rw [hm] at hr
    simp only [List.mem_map] at hr
    obtain ⟨v, _, hveq⟩ := hr
    exact hne v hveq.symm
  · intro ds n hdl hble
    rw [foRun_eq_foSpec n _ []
      (zipWith_mk_delay_le ds (elemResults fuel snapshot field arr) n hble),
      zipWith_mk_map_result ds _ (by rw [hlen, hdl]), hspec]

theorem c3_list_order_and_errors_witness :
    (listField.fieldType = some (.named "Int")
      ∧ intScalarSnap.findTypeDefinitionByName (GqlType.named "Int").name
          = some (.scalar ⟨"Int", none, []⟩)
      ∧ resolveElems 5 intScalarSnap listField [.value (.number 1), .value (.number 2)]
          = .ok [.number 1, .number 2]
      ∧ ([1, 0] : List Nat).length
          = ([Resolved.value (.number 1), .value (.number 2)] : List Resolved).length
      ∧ (∀ d ∈ ([1, 0] : List Nat), d ≤ 1))
  ∧ resolve_to_value 6 intScalarSnap listField
        (.array [.value (.number 1), .value (.number 2)])
      = .ok (.list [.number 1, .number 2])
  ∧ foRun 2
        (List.zipWith (fun d r => FOElem.mk d r) [1, 0]
          (elemResults 5 intScalarSnap listField [.value (.number 1), .value (.number 2)]))
        []
      = resolveElems 5 intScalarSnap listField [.value (.number 1), .value (.number 2)] :=
  ⟨⟨rfl, rfl, rfl, rfl, by decide⟩,
   ((c3_list_order_and_errors 5 intScalarSnap listField (.named "Int")
        (.scalar ⟨"Int", none, []⟩) [.value (.number 1), .value (.number 2)]
        rfl rfl).2.2.1 [.number 1, .number 2] rfl).1,
   ((c3_list_order_and_errors 5 intScalarSnap listField (.named "Int")
        (.scalar ⟨"Int", none, []⟩) [.value (.number 1), .value (.number 2)]
        rfl rfl).2.2.2.2.2 [1, 0] 1 rfl (by decide))⟩

/-- Claim C4, counterexample: for a union-typed field the claim requires
`resolve_type_name` to be consulted and, here (it returns the existing
member type `T1`), execution to recurse into `T1`.  The code's
`resolve_to_value` instead matches unions under `_ => Err("type mismatch:
object type expected")` without ever calling `resolve_type_name`. -/
theorem c4_counterexample_union_never_consults_resolver :
    unionSubResolver.resolveTypeName = .ok (some "T1") ∧
    unionSnap.findObjectTypeByName "T1" = some objT1 ∧
    resolve_to_value 5 unionSnap unionField (.object unionSubResolver)
      = .err (.msg "type mismatch: object type expected") :=
  ⟨rfl, rfl, rfl⟩

/-- Claim C4 as amended: only for fields whose declared type is an
interface does `Object(sub_resolver)` consult `resolve_type_name` —
failing when it yields `None` or an unknown name and recursing into the
named concrete type otherwise (no subtype check); a union-typed field
always fails with the type-mismatch error, whatever the resolver would
answer. -/
theorem c4_abstract_field_resolution (fuel : Nat) (snapshot : Snapshot) (field : Field)
    (r : ObjResolver) (fieldTy : GqlType) (h1 : field.fieldType = some fieldTy) :
    (∀ iface : InterfaceTypeDef,
      snapshot.findTypeDefinitionByName fieldTy.name = some (.interface iface) →
      ((r.resolveTypeName = .ok none →
          resolve_to_value (fuel + 1) snapshot field (.object r)
            = .err (.msg ("resolver did not return concrete type for " ++ iface.name)))
        ∧ (∀ tn, r.resolveTypeName = .ok (some tn) →
            snapshot.findObjectTypeByName tn = none →
            resolve_to_value (fuel + 1) snapshot field (.object r)
              = .err (.msg ("concrete object type not found: " ++ tn)))
        ∧ (∀ tn o, r.resolveTypeName = .ok (some tn) →
            snapshot.findObjectTypeByName tn = some o →
            resolve_to_value (fuel + 1) snapshot field (.object r)
              = executeSelectionSet fuel snapshot r o field.selectionSet)))
  ∧ (∀ u : UnionTypeDef,
      snapshot.findTypeDefinitionByName fieldTy.name = some (.union u) →
      resolve_to_value (fuel + 1) snapshot field (.object r)
        = .err (.msg "type mismatch: object type expected")) := by
  constructor
  · intro iface h2
    refine ⟨?_, ?_, ?_⟩
    · intro h3
      simp only [resolve_to_value, h1, h2, h3]
    · intro tn h3 h4
      simp only [resolve_to_value, h1, h2, h3, h4]
    · intro tn o h3 h4
      simp only [resolve_to_value, h1, h2, h3, h4]
  · intro u h2
    simp only [resolve_to_value, h1, h2]

theorem c4_abstract_field_resolution_witness :
    (ifaceField.fieldType = some (.named "I")
      ∧ ifaceSnap.findTypeDefinitionByName (GqlType.named "I").name
          = some (.interface ifaceI)
      ∧ noNameResolver.resolveTypeName = .ok none
      ∧ ghostResolver.resolveTypeName = .ok (some "Ghost")
      ∧ ifaceSnap.findObjectTypeByName "Ghost" = none
      ∧ implResolver.resolveTypeName = .ok (some "Impl")
      ∧ ifaceSnap.findObjectTypeByName "Impl" = some objImpl)
  ∧ resolve_to_value 4 ifaceSnap ifaceField (.object noNameResolver)
      = .err (.msg ("resolver did not return concrete type for " ++ "I"))
  ∧ resolve_to_value 4 ifaceSnap ifaceField (.object ghostResolver)
      = .err (.msg ("concrete object type not found: " ++ "Ghost"))
  ∧ resolve_to_value 4 ifaceSnap ifaceField (.object implResolver)
      = executeSelectionSet 3 ifaceSnap implResolver objImpl ifaceField.selectionSet
  ∧ resolve_to_value 5 unionSnap unionField (.object unionSubResolver)
      = .err (.msg "type mismatch: object type expected") :=
  ⟨⟨rfl, rfl, rfl, rfl, rfl, rfl, rfl⟩,
   ((c4_abstract_field_resolution 3 ifaceSnap ifaceField noNameResolver
      (.named "I") rfl).1 ifaceI rfl).1 rfl,
   (((c4_abstract_field_resolution 3 ifaceSnap ifaceField ghostResolver
      (.named "I") rfl).1 ifaceI rfl).2.1 "Ghost" rfl rfl),
   (((c4_abstract_field_resolution 3 ifaceSnap ifaceField implResolver
      (.named "I") rfl).1 ifaceI rfl).2.2 "Impl" objImpl rfl rfl),
   ((c4_abstract_field_resolution 4 unionSnap unionField unionSubResolver
      (.named "U") rfl).2 unionU rfl)⟩

/-- Claim C5, counterexample: the claim says `__typename` resolves at every
depth because the typename decorator is applied around every descent.  In
`resolve_to_value` the sub-resolver is passed to the nested
`SelectionSetFuture` as-is — no `IspObjectResolver` wrapping — so a nested
`{ __typename }` against a user resolver that does not implement it ends in
a field error instead of the concrete type name `"Inner"`. -/
theorem c5_counterexample_nested_typename_fails :
    resolve_to_value 9 innerSnap outerField (.object plainUserResolver)
      = .err (.fieldErrors [("__typename", .msg "unknown field: __typename")]) :=
  rfl

/-- Claim C5 as amended: `__typename` is resolvable without user support
exactly where the typename decorator has been applied — the operation root
(mod.rs wraps the root resolver in `IspObjectResolver`); `resolve_to_value`
recurses into nested object types with the sub-resolver undecorated, so a
nested `__typename` is delegated to the user resolver. -/
theorem c5_typename_decorator_only_at_root (tyDef : ObjectTypeDef) (inner : ObjResolver)
    (fuel : Nat) (snapshot : Snapshot) (field : Field) (r : ObjResolver)
    (fieldTy : GqlType) (o : ObjectTypeDef)
    (h1 : field.fieldType = some fieldTy)
    (h2 : snapshot.findTypeDefinitionByName fieldTy.name = some (.object o)) :
    ((ispObjectResolver tyDef inner).resolveField "__typename"
        = .ok (Resolved.string tyDef.name))
  ∧ (∀ other, other ≠ "__typename" →
      (ispObjectResolver tyDef inner).resolveField other = inner.resolveField other)
  ∧ (resolve_to_value (fuel + 1) snapshot field (.object r)
      = executeSelectionSet fuel snapshot r o field.selectionSet) := by
  refine ⟨rfl, ?_, ?_⟩
  · intro other hne
    simp only [ispObjectResolver, ObjResolver.resolveField]
  · simp only [resolve_to_value, h1, h2]

theorem c5_typename_decorator_only_at_root_witness :
    (outerField.fieldType = some (.named "Inner")
      ∧ innerSnap.findTypeDefinitionByName (GqlType.named "Inner").name
          = some (.object innerTy)
      ∧ ("q" : Name) ≠ "__typename")
  ∧ ((ispObjectResolver innerTy plainUserResolver).resolveField "__typename"
      = .ok (Resolved.string "Inner"))
  ∧ ((ispObjectResolver innerTy plainUserResolver).resolveField "q"
      = plainUserResolver.resolveField "q")
  ∧ (resolve_to_value 9 innerSnap outerField (.object plainUserResolver)
      = executeSelectionSet 8 innerSnap plainUserResolver innerTy
          outerField.selectionSet) :=
  ⟨⟨rfl, rfl, by decide⟩,
   (c5_typename_decorator_only_at_root innerTy plainUserResolver 8 innerSnap
      outerField plainUserResolver (.named "Inner") innerTy rfl rfl).1,
   (c5_typename_decorator_only_at_root innerTy plainUserResolver 8 innerSnap
      outerField plainUserResolver (.named "Inner") innerTy rfl rfl).2.1 "q" (by decide),
   (c5_typename_decorator_only_at_root innerTy plainUserResolver 8 innerSnap
      outerField plainUserResolver (.named "Inner") innerTy rfl rfl).2.2⟩

/-- Claim C6: the spec says field collection terminates on every document,
never re-entering a fragment being visited on the current path.  The code
(collect_fields.rs, whose own comment reads "FIXME track visitedFragments
according to spec") tracks nothing and re-enters freely: on the cyclic
document `fragment A on Query { ...B }  fragment B on Query { ...A }` with
selection `{ ...A }`, collection exhausts every fuel — the Rust code
recurses forever. -/
theorem c6_collect_fields_diverges_on_fragment_cycle : ∀ fuel,
    collect_fields cyclicCtx fuel [.fragmentSpread "A" []] cyclicQueryTy
      = .fuelOut := by
  intro fuel
  exact (collect_cyclic_aux fuel []).1

/-- Claim C7: the spec says a variable-valued `if` argument of `@skip` or
`@include` is resolved through the execution context's variables and never
panics; the code's `hir::Value::Variable(_var) => todo!()` arms panic
instead. -/
theorem c7_variable_if_argument_panics :
    should_skip (.field (.mk none "x" [⟨"skip", [("if", .variable "cond")]⟩] [] none []))
      = .panicked ∧
    should_include
        (.field (.mk none "x" [⟨"include", [("if", .variable "cond")]⟩] [] none []))
      = .panicked :=
  ⟨rfl, rfl⟩

/-- Claim C8: a selection with `@skip(if: true)` or `@include(if: false)`
(boolean literals) contributes no entry to the collected field map, and a
selection with `@skip(if: false)` or `@include(if: true)` is collected
under its response key — the alias if present, else the field name. -/
theorem c8_skip_include_literals : ∀ (ectx : ExecCtx) (ty : ObjectTypeDef) (fuel : Nat)
    (al : Option Name) (n : Name) (args : List (Name × HirValue)) (ft : Option GqlType)
    (ss rest : List Selection) (grouped : List (Name × List Field)),
    (collectInner ectx ty (fuel + 1)
        (.field (.mk al n [⟨"skip", [("if", .boolean true)]⟩] args ft ss) :: rest) grouped
      = collectInner ectx ty fuel rest grouped)
  ∧ (collectInner ectx ty (fuel + 1)
        (.field (.mk al n [⟨"include", [("if", .boolean false)]⟩] args ft ss) :: rest)
        grouped
      = collectInner ectx ty fuel rest grouped)
  ∧ (collect_fields ectx (fuel + 1)
        [.field (.mk al n [⟨"skip", [("if", .boolean false)]⟩] args ft ss)] ty
      = .ok [(al.getD n, [.mk al n [⟨"skip", [("if", .boolean false)]⟩] args ft ss])])
  ∧ (collect_fields ectx (fuel + 1)
        [.field (.mk al n [⟨"include", [("if", .boolean true)]⟩] args ft ss)] ty
      = .ok [(al.getD n, [.mk al n [⟨"include", [("if", .boolean true)]⟩] args ft ss])]) := by
  intro ectx ty fuel al n args ft ss rest grouped
  refine ⟨rfl, rfl, ?_, ?_⟩
  · rw [show collect_fields ectx (fuel + 1)
        [.field (.mk al n [⟨"skip", [("if", .boolean false)]⟩] args ft ss)] ty
      = collectInner ectx ty fuel []
          [(responseKey (.mk al n [⟨"skip", [("if", .boolean false)]⟩] args ft ss),
            [.mk al n [⟨"skip", [("if", .boolean false)]⟩] args ft ss])] from rfl,
      collectInner_nil]
    cases al <;> rfl
  · rw [show collect_fields ectx (fuel + 1)
        [.field (.mk al n [⟨"include", [("if", .boolean true)]⟩] args ft ss)] ty
      = collectInner ectx ty fuel []
          [(responseKey (.mk al n [⟨"include", [("if", .boolean true)]⟩] args ft ss),
            [.mk al n [⟨"include", [("if", .boolean true)]⟩] args ft ss])] from rfl,
      collectInner_nil]
    cases al <;> rfl

/-- Claim C9, counterexample: asked for `__type`, the root decorator is
claimed to return a type resolver for the named type (or null); the code's
`IspRootResolver::resolve_field` only matches `__schema` and hands
everything else — `__type` included — to the wrapped resolver. -/
theorem c9_counterexample_type_field_delegates :
    (ispRootResolver emptyTs 3 markedRootResolver).resolveField "__type"
      = .err (.msg "inner resolver: __type") :=
  rfl

/-- Claim C9 as amended: on `__schema` the root decorator returns the
schema resolver; every other field name, `__type` included, is delegated to
the wrapped operation-root resolver unchanged. -/
theorem c9_root_decorator_dispatch (ts : TypeSystem) (fuel : Nat) (inner : ObjResolver) :
    ((ispRootResolver ts fuel inner).resolveField "__schema"
        = .ok (.object (ispSchemaResolver ts fuel)))
  ∧ (∀ name, name ≠ "__schema" →
      (ispRootResolver ts fuel inner).resolveField name = inner.resolveField name) := by
  refine ⟨rfl, ?_⟩
  intro name hne
  simp only [ispRootResolver, ObjResolver.resolveField]

theorem c9_root_decorator_dispatch_witness :
    (("__type" : Name) ≠ "__schema")
  ∧ ((ispRootResolver emptyTs 3 markedRootResolver).resolveField "__schema"
      = .ok (.object (ispSchemaResolver emptyTs 3)))
  ∧ ((ispRootResolver emptyTs 3 markedRootResolver).resolveField "__type"
      = markedRootResolver.resolveField "__type") :=
  ⟨by decide,
   (c9_root_decorator_dispatch emptyTs 3 markedRootResolver).1,
   (c9_root_decorator_dispatch emptyTs 3 markedRootResolver).2 "__type" (by decide)⟩

/-- Claim C10: a top-level unbound variable in an argument value makes
`try_arg` return an error, but an unbound variable nested inside a list or
object literal hits the `resolve_vars(v).unwrap()` calls (marked `//FIXME
unwrap`) and panics. -/
theorem c10_try_arg_panics_on_nested_variable :
    (∀ (vars : List (Name × ConstValue)) (fld : Field) (argName var : Name)
        (conv : ConstValue → Except String ConstValue),
        fld.arguments.find? (fun a => a.1 == argName) = some (argName, .variable var) →
        (vars.find? (fun kv => kv.1 == var)).map (·.2) = none →
        Ctx.try_arg ⟨vars, fld⟩ conv argName
          = .err (.msg ("undefined variable: " ++ var)))
  ∧ (Ctx.resolve_vars ⟨[], listArgField⟩ (.list [.variable "v"]) = .panicked)
  ∧ (Ctx.resolve_vars ⟨[], listArgField⟩ (.object [("k", .variable "v")]) = .panicked)
  ∧ (Ctx.try_arg ⟨[], listArgField⟩ (fun v => .ok v) "arg" = .panicked) := by
  refine ⟨?_, rfl, rfl, rfl⟩
  intro vars fld argName var conv hfind hlookup
  simp only [Ctx.try_arg, hfind]
  simp only [Ctx.resolve_vars, hlookup]

theorem c10_try_arg_panics_on_nested_variable_witness :
    ((Field.mk none "g" [] [("a", .variable "w")] none []
        |>.arguments.find? (fun a => a.1 == "a")) = some ("a", .variable "w")
      ∧ (([] : List (Name × ConstValue)).find? (fun kv => kv.1 == "w")).map (·.2) = none)
  ∧ Ctx.try_arg ⟨[], Field.mk none "g" [] [("a", .variable "w")] none []⟩
      (fun v => Except.ok v) "a" = .err (.msg ("undefined variable: " ++ "w")) :=
  ⟨⟨rfl, rfl⟩,
   (c10_try_arg_panics_on_nested_variable.1 [] _ "a" "w" (fun v => Except.ok v) rfl rfl)⟩




end Phoebus
